import Mathlib

/-!
# NoC placement utilities: a shallow embedding

The repository ships the interface `vpr/src/place/noc_place_utils.h` of the
incremental NoC (Network-on-Chip) cost-and-routing engine used during
placement.  Only the declarations and their documentation are in the source
tree; the implementation file is absent, so each declared operation is
modelled below from the specification's description of that operation.

Doubles are modelled as rationals (`ℚ`), so "bit-for-bit" equality of cost
and usage values becomes exact equality of rationals.  Identifier types
(`NocLinkId`, `ClusterBlockId`, `NocTrafficFlowId`) and physical locations
(`t_block_loc`) are modelled as natural numbers.
-/

abbrev NocLinkId := Nat

abbrev ClusterBlockId := Nat

abbrev NocTrafficFlowId := Nat

abbrev t_block_loc := Nat

/-- From `noc_place_utils.h`: maximum value of the aggregate-bandwidth cost
normalization factor (guards against a zero aggregate-bandwidth cost). -/
def MAX_INV_NOC_AGGREGATE_BANDWIDTH_COST : ℚ := 1

/-- From `noc_place_utils.h`: maximum value of the latency cost
normalization factor (latency costs are expected in the picosecond range). -/
def MAX_INV_NOC_LATENCY_COST : ℚ := 10 ^ 12

/-- From `noc_place_utils.h`: defines how the links found in a traffic flow
are updated in terms of their bandwidth usage. -/
inductive link_usage_update_state where
  | increment
  | decrement
deriving DecidableEq

/-- Modelled from the spec: the Topology Model (`NocStorage`).  A graph of
routers and links; each link carries a capacity (`link_bandwidth`), a
per-traversal latency, and a current bandwidth-usage counter.  Routers
contribute a per-router latency.  Only `bandwidth_usage` is mutated by the
core. -/
@[ext]
structure NocStorage where
  link_ids : List NocLinkId
  link_bandwidth : NocLinkId → ℚ
  link_latency : NocLinkId → ℚ
  noc_router_latency : ℚ
  bandwidth_usage : NocLinkId → ℚ

/-- Modelled from the spec: one traffic flow (`t_noc_traffic_flow`): source
router block, sink router block, bandwidth demand, optional latency
constraint (`none` = unconstrained), and priority weight. -/
structure t_noc_traffic_flow where
  source_router_cluster_id : ClusterBlockId
  sink_router_cluster_id : ClusterBlockId
  traffic_flow_bandwidth : ℚ
  max_traffic_flow_latency : Option ℚ
  traffic_flow_priority : ℚ

/-- Modelled from the spec: the Traffic Flow Registry (`NocTrafficFlows`),
read-only for the core: the list of flow ids, per-flow attributes, and the
predicate telling which cluster blocks map to NoC routers. -/
structure NocTrafficFlows where
  traffic_flow_ids : List NocTrafficFlowId
  flow_info : NocTrafficFlowId → t_noc_traffic_flow
  is_noc_router_block : ClusterBlockId → Bool

/-- Modelled from the spec: the pluggable Routing Strategy (`NocRouting`):
given the physical locations of the two endpoint routers it returns an
ordered sequence of links forming a route.  It is a pure function of its
inputs, which is the spec's determinism requirement. -/
abbrev NocRouting := t_block_loc → t_block_loc → List NocLinkId

/-- Modelled from the spec: the external placer's location-lookup capability
(`placed_cluster_block_locations`). -/
abbrev BlockLocations := ClusterBlockId → t_block_loc

/-- Modelled from the spec: the core-owned mutable state: the Topology
Model's storage (with its usage counters) and the Route Store
(`traffic_flow_routes`, current route per flow). -/
@[ext]
structure NocPlaceState where
  noc_model : NocStorage
  traffic_flow_routes : NocTrafficFlowId → List NocLinkId

/-- Modelled from the spec: the optimizer's cost structure
(`t_placer_costs`), restricted to its NoC fields: two running cost totals
and two normalization factors. -/
@[ext]
structure t_placer_costs where
  noc_aggregate_bandwidth_cost : ℚ
  noc_latency_cost : ℚ
  noc_aggregate_bandwidth_cost_norm : ℚ
  noc_latency_cost_norm : ℚ

/-- Modelled from the spec: the user-configured latency weighting factors
(`t_noc_opts`). -/
structure t_noc_opts where
  noc_latency_weighting : ℚ
  noc_latency_constraints_weighting : ℚ

/-- Signed bandwidth adjustment selected by the two-state enumeration. -/
def link_usage_update_state.delta : link_usage_update_state → ℚ → ℚ
  | .increment, bw => bw
  | .decrement, bw => -bw

/-- Modelled from the spec: `update_traffic_flow_link_usage` (declared in
`noc_place_utils.h`, implementation absent).  Walks the links of a routed
traffic flow and increments or decrements each link's bandwidth-usage
counter by the traffic flow's bandwidth; no other field of the Topology
Model is touched. -/
def update_traffic_flow_link_usage (traffic_flow_route : List NocLinkId)
    (noc_model : NocStorage) (how_to_update_links : link_usage_update_state)
    (traffic_flow_bandwidth : ℚ) : NocStorage :=
  { noc_model with
    bandwidth_usage :=
      traffic_flow_route.foldl
        (fun usage l =>
          Function.update usage l
            (usage l + how_to_update_links.delta traffic_flow_bandwidth))
        noc_model.bandwidth_usage }

/-- Modelled from the spec: `get_traffic_flow_route` (declared in
`noc_place_utils.h`, implementation absent).  Resolves the flow's source and
sink router blocks to their placed locations and asks the Routing Strategy
for a route. -/
def get_traffic_flow_route (traffic_flow_id : NocTrafficFlowId)
    (noc_traffic_flows_storage : NocTrafficFlows) (noc_flows_router : NocRouting)
    (placed_cluster_block_locations : BlockLocations) : List NocLinkId :=
  let info := noc_traffic_flows_storage.flow_info traffic_flow_id
  noc_flows_router (placed_cluster_block_locations info.source_router_cluster_id)
    (placed_cluster_block_locations info.sink_router_cluster_id)

/-- Modelled from the spec: `re_route_traffic_flow` (declared in
`noc_place_utils.h`, implementation absent).  Removes the flow's old route
(decrementing usage on its links), routes the flow against the current
placement, stores the new route wholesale in the Route Store and increments
usage on the new route's links. -/
def re_route_traffic_flow (traffic_flow_id : NocTrafficFlowId)
    (noc_traffic_flows_storage : NocTrafficFlows) (noc_flows_router : NocRouting)
    (placed_cluster_block_locations : BlockLocations) (s : NocPlaceState) :
    NocPlaceState :=
  let info := noc_traffic_flows_storage.flow_info traffic_flow_id
  let old_route := s.traffic_flow_routes traffic_flow_id
  let noc1 := update_traffic_flow_link_usage old_route s.noc_model
    .decrement info.traffic_flow_bandwidth
  let new_route := get_traffic_flow_route traffic_flow_id noc_traffic_flows_storage
    noc_flows_router placed_cluster_block_locations
  let noc2 := update_traffic_flow_link_usage new_route noc1
    .increment info.traffic_flow_bandwidth
  { noc_model := noc2,
    traffic_flow_routes := Function.update s.traffic_flow_routes traffic_flow_id new_route }

/-- Modelled from the spec: lookup of the traffic flows associated to a
router cluster block (a flow is associated to the block when the block is
its source or its sink). -/
def traffic_flows_associated_to_router_block (tf : NocTrafficFlows)
    (router_block_id : ClusterBlockId) : List NocTrafficFlowId :=
  tf.traffic_flow_ids.filter (fun f =>
    decide ((tf.flow_info f).source_router_cluster_id = router_block_id ∨
      (tf.flow_info f).sink_router_cluster_id = router_block_id))

/-- Modelled from the spec: `calculate_traffic_flow_aggregate_bandwidth_cost`
(declared in `noc_place_utils.h`, implementation absent).  Number of links in
the route times the flow's bandwidth, scaled by the flow's priority. -/
def calculate_traffic_flow_aggregate_bandwidth_cost
    (traffic_flow_route : List NocLinkId) (traffic_flow_info : t_noc_traffic_flow) : ℚ :=
  traffic_flow_info.traffic_flow_priority *
    ((traffic_flow_route.length : ℚ) * traffic_flow_info.traffic_flow_bandwidth)

/-- Modelled from the spec: the actual latency of a routed traffic flow: the
sum of the per-link latencies along the route plus the per-router latency of
every router traversed (one more router than there are links). -/
def traffic_flow_latency (noc_model : NocStorage)
    (traffic_flow_route : List NocLinkId) : ℚ :=
  (traffic_flow_route.map noc_model.link_latency).sum +
    ((traffic_flow_route.length : ℚ) + 1) * noc_model.noc_router_latency

/-- Modelled from the spec: `calculate_traffic_flow_latency_cost` (declared
in `noc_place_utils.h`, implementation absent).  Weighted combination of the
flow's actual route latency and the non-negative gap to its latency
constraint (zero when unconstrained), scaled by the flow's priority. -/
def calculate_traffic_flow_latency_cost (traffic_flow_route : List NocLinkId)
    (noc_model : NocStorage) (traffic_flow_info : t_noc_traffic_flow)
    (noc_opts : t_noc_opts) : ℚ :=
  let latency := traffic_flow_latency noc_model traffic_flow_route
  let constraint_violation :=
    match traffic_flow_info.max_traffic_flow_latency with
    | none => 0
    | some c => max 0 (latency - c)
  traffic_flow_info.traffic_flow_priority *
    (noc_opts.noc_latency_weighting * latency +
      noc_opts.noc_latency_constraints_weighting * constraint_violation)

/-- Modelled from the spec: `comp_noc_aggregate_bandwidth_cost` (declared in
`noc_place_utils.h`, implementation absent).  Full recompute from the Route
Store: sum of per-flow aggregate-bandwidth costs over all flows. -/
def comp_noc_aggregate_bandwidth_cost (tf : NocTrafficFlows)
    (s : NocPlaceState) : ℚ :=
  (tf.traffic_flow_ids.map (fun f =>
    calculate_traffic_flow_aggregate_bandwidth_cost
      (s.traffic_flow_routes f) (tf.flow_info f))).sum

/-- Modelled from the spec: `comp_noc_latency_cost` (declared in
`noc_place_utils.h`, implementation absent).  Full recompute from the Route
Store: sum of per-flow latency costs over all flows. -/
def comp_noc_latency_cost (tf : NocTrafficFlows) (s : NocPlaceState)
    (noc_opts : t_noc_opts) : ℚ :=
  (tf.traffic_flow_ids.map (fun f =>
    calculate_traffic_flow_latency_cost
      (s.traffic_flow_routes f) s.noc_model (tf.flow_info f) noc_opts)).sum

/-- Modelled from the spec: the accumulator of one move transaction: the
mutated state, the transaction-scoped Affected-Flow Set (kept as the list of
flow ids in processing order), the affected-flow count, and the two running
cost deltas. -/
structure NocMoveAcc where
  state : NocPlaceState
  updated_traffic_flows : List NocTrafficFlowId
  affected_count : Nat
  noc_aggregate_bandwidth_delta_c : ℚ
  noc_latency_delta_c : ℚ

/-- Modelled from the spec: processing of a single affected traffic flow
inside `re_route_associated_traffic_flows`: a flow already in the
transaction's Affected-Flow Set is skipped; otherwise its old cost
contribution is read, it is re-routed against the candidate placement, its
new cost contribution is computed, and (new − old) is accumulated into the
transaction's deltas. -/
def process_affected_flow (tf : NocTrafficFlows) (noc_flows_router : NocRouting)
    (placed : BlockLocations) (noc_opts : t_noc_opts) (acc : NocMoveAcc)
    (f : NocTrafficFlowId) : NocMoveAcc :=
  if f ∈ acc.updated_traffic_flows then acc
  else
    let info := tf.flow_info f
    let old_bw_cost := calculate_traffic_flow_aggregate_bandwidth_cost
      (acc.state.traffic_flow_routes f) info
    let old_lat_cost := calculate_traffic_flow_latency_cost
      (acc.state.traffic_flow_routes f) acc.state.noc_model info noc_opts
    let s' := re_route_traffic_flow f tf noc_flows_router placed acc.state
    let new_bw_cost := calculate_traffic_flow_aggregate_bandwidth_cost
      (s'.traffic_flow_routes f) info
    let new_lat_cost := calculate_traffic_flow_latency_cost
      (s'.traffic_flow_routes f) s'.noc_model info noc_opts
    { state := s',
      updated_traffic_flows := acc.updated_traffic_flows ++ [f],
      affected_count := acc.affected_count + 1,
      noc_aggregate_bandwidth_delta_c :=
        acc.noc_aggregate_bandwidth_delta_c + (new_bw_cost - old_bw_cost),
      noc_latency_delta_c := acc.noc_latency_delta_c + (new_lat_cost - old_lat_cost) }

/-- Modelled from the spec: `re_route_associated_traffic_flows` (declared in
`noc_place_utils.h`, implementation absent).  Goes through the traffic flows
associated to a moved router block, skipping flows already in the
transaction's Affected-Flow Set, and re-routes each new one while
accumulating its cost delta. -/
def re_route_associated_traffic_flows (moved_router_block_id : ClusterBlockId)
    (tf : NocTrafficFlows) (noc_flows_router : NocRouting) (placed : BlockLocations)
    (noc_opts : t_noc_opts) (acc : NocMoveAcc) : NocMoveAcc :=
  (traffic_flows_associated_to_router_block tf moved_router_block_id).foldl
    (process_affected_flow tf noc_flows_router placed noc_opts) acc

/-- Modelled from the spec: `find_affected_noc_routers_and_update_noc_costs`
(declared in `noc_place_utils.h`, implementation absent).  Filters the move
transaction's blocks to those that map to NoC routers, re-routes every
traffic flow associated to a moved router (deduplicated across the whole
transaction by the Affected-Flow Set), and returns the mutated state, the
two signed cost deltas and the affected-flow count.  The move transaction is
modelled by the list of moved cluster-block ids; the candidate locations are
read from `placed`. -/
def find_affected_noc_routers_and_update_noc_costs
    (blocks_affected : List ClusterBlockId) (tf : NocTrafficFlows)
    (noc_flows_router : NocRouting) (placed : BlockLocations)
    (noc_opts : t_noc_opts) (s : NocPlaceState) : NocMoveAcc :=
  blocks_affected.foldl
    (fun acc b =>
      if tf.is_noc_router_block b then
        re_route_associated_traffic_flows b tf noc_flows_router placed noc_opts acc
      else acc)
    ⟨s, [], 0, 0, 0⟩

/-- Modelled from the spec: the state-and-set part of one revert step: the
same dedup-and-re-route logic as a move transaction, without cost
accounting. -/
def revert_process_flow (tf : NocTrafficFlows) (noc_flows_router : NocRouting)
    (placed : BlockLocations) (acc : NocPlaceState × List NocTrafficFlowId)
    (f : NocTrafficFlowId) : NocPlaceState × List NocTrafficFlowId :=
  if f ∈ acc.2 then acc
  else (re_route_traffic_flow f tf noc_flows_router placed acc.1, acc.2 ++ [f])

/-- Modelled from the spec: `revert_noc_traffic_flow_routes` (declared in
`noc_place_utils.h`, implementation absent).  Invoked after the optimizer
rejects a transaction and the external placer has restored the prior router
locations: re-runs the same affected-flow identification and re-routing
logic against the restored placement. -/
def revert_noc_traffic_flow_routes (blocks_affected : List ClusterBlockId)
    (tf : NocTrafficFlows) (noc_flows_router : NocRouting)
    (placed : BlockLocations) (s : NocPlaceState) : NocPlaceState :=
  (blocks_affected.foldl
    (fun acc b =>
      if tf.is_noc_router_block b then
        (traffic_flows_associated_to_router_block tf b).foldl
          (revert_process_flow tf noc_flows_router placed) acc
      else acc)
    (s, [])).1

/-- Modelled from the spec: the per-flow step of initial routing: route the
flow, store the route in the Route Store, and increment usage on every link
of the route. -/
def route_and_update (tf : NocTrafficFlows) (noc_flows_router : NocRouting)
    (placed : BlockLocations) (s : NocPlaceState) (f : NocTrafficFlowId) :
    NocPlaceState :=
  let r := get_traffic_flow_route f tf noc_flows_router placed
  { noc_model := update_traffic_flow_link_usage r s.noc_model .increment
      (tf.flow_info f).traffic_flow_bandwidth,
    traffic_flow_routes := Function.update s.traffic_flow_routes f r }

/-- Modelled from the spec: `initial_noc_placement` (declared in
`noc_place_utils.h`, implementation absent).  Routes every traffic flow
against the initial placement, filling the Route Store (initially empty)
and the usage counters of the given Topology Model storage. -/
def initial_noc_placement (tf : NocTrafficFlows) (noc_flows_router : NocRouting)
    (placed : BlockLocations) (noc_model0 : NocStorage) : NocPlaceState :=
  tf.traffic_flow_ids.foldl (route_and_update tf noc_flows_router placed)
    ⟨noc_model0, fun _ => []⟩

/-- Modelled from the spec: `recompute_noc_costs` (declared in
`noc_place_utils.h`, implementation absent).  From-scratch recomputation of
both cost totals from the current Route Store, without touching routing. -/
def recompute_noc_costs (tf : NocTrafficFlows) (s : NocPlaceState)
    (noc_opts : t_noc_opts) : ℚ × ℚ :=
  (comp_noc_aggregate_bandwidth_cost tf s, comp_noc_latency_cost tf s noc_opts)

/-- Modelled from the spec: `commit_noc_costs` (declared in
`noc_place_utils.h`, implementation absent).  Folds the deltas computed by
the preceding move transaction into the persistent Cost State; bookkeeping
only. -/
def commit_noc_costs (costs : t_placer_costs)
    (noc_aggregate_bandwidth_delta_c noc_latency_delta_c : ℚ) : t_placer_costs :=
  { costs with
    noc_aggregate_bandwidth_cost :=
      costs.noc_aggregate_bandwidth_cost + noc_aggregate_bandwidth_delta_c,
    noc_latency_cost := costs.noc_latency_cost + noc_latency_delta_c }

/-- Modelled from the spec: `check_noc_placement_costs` (declared in
`noc_place_utils.h`, implementation absent).  Drift audit: compares the
incrementally maintained Cost State against a fresh full recomputation and
counts one error per cost term whose difference exceeds the caller-supplied
error tolerance. -/
def check_noc_placement_costs (costs : t_placer_costs) (error_tolerance : ℚ)
    (tf : NocTrafficFlows) (s : NocPlaceState) (noc_opts : t_noc_opts) : Nat :=
  let recomputed := recompute_noc_costs tf s noc_opts
  (if |recomputed.1 - costs.noc_aggregate_bandwidth_cost| > error_tolerance
    then 1 else 0) +
  (if |recomputed.2 - costs.noc_latency_cost| > error_tolerance then 1 else 0)

/-- Modelled from the spec: a normalization factor is the reciprocal of its
cost term clamped to a maximum, the clamp also covering a cost of exactly
zero so the factor never becomes unbounded. -/
def clamped_inverse (cost maximum : ℚ) : ℚ :=
  if cost = 0 then maximum else min cost⁻¹ maximum

/-- Modelled from the spec: `update_noc_normalization_factors` (declared in
`noc_place_utils.h`, implementation absent).  Recomputes both normalization
factors from the current Cost State, each the clamped reciprocal of its cost
term.  The blending of the normalized costs into the overall placement cost
is an external configuration concern and is not modelled. -/
def update_noc_normalization_factors (costs : t_placer_costs) : t_placer_costs :=
  { costs with
    noc_aggregate_bandwidth_cost_norm :=
      clamped_inverse costs.noc_aggregate_bandwidth_cost
        MAX_INV_NOC_AGGREGATE_BANDWIDTH_COST,
    noc_latency_cost_norm :=
      clamped_inverse costs.noc_latency_cost MAX_INV_NOC_LATENCY_COST }

/-- Modelled from the spec: one accepted move: the transaction is processed
optimistically and its deltas are folded into the Cost State by
`commit_noc_costs`. -/
def accepted_move (tf : NocTrafficFlows) (noc_flows_router : NocRouting)
    (noc_opts : t_noc_opts) (move : List ClusterBlockId × BlockLocations)
    (cs : t_placer_costs × NocPlaceState) : t_placer_costs × NocPlaceState :=
  let acc := find_affected_noc_routers_and_update_noc_costs move.1 tf
    noc_flows_router move.2 noc_opts cs.2
  (commit_noc_costs cs.1 acc.noc_aggregate_bandwidth_delta_c
    acc.noc_latency_delta_c, acc.state)

/-- Modelled from the spec: one rejected move: the transaction is processed
optimistically against the candidate placement `placed_new`, the optimizer
rejects it, the external placer restores the prior locations `placed_old`,
and `revert_noc_traffic_flow_routes` runs.  The Cost State is not committed
(the deltas are discarded). -/
def rejected_move (tf : NocTrafficFlows) (noc_flows_router : NocRouting)
    (noc_opts : t_noc_opts) (blocks_affected : List ClusterBlockId)
    (placed_new placed_old : BlockLocations)
    (cs : t_placer_costs × NocPlaceState) : t_placer_costs × NocPlaceState :=
  let acc := find_affected_noc_routers_and_update_noc_costs blocks_affected tf
    noc_flows_router placed_new noc_opts cs.2
  (cs.1, revert_noc_traffic_flow_routes blocks_affected tf noc_flows_router
    placed_old acc.state)

/-- The Topology Model invariant stated by the spec: every link's bandwidth
usage counter equals the sum of the bandwidth demands of exactly those
traffic flows whose current route in the Route Store includes that link. -/
def usage_matches_routes (tf : NocTrafficFlows) (s : NocPlaceState) : Prop :=
  ∀ l : NocLinkId,
    s.noc_model.bandwidth_usage l =
      ((tf.traffic_flow_ids.filter (fun f => decide (l ∈ s.traffic_flow_routes f))).map
        (fun f => (tf.flow_info f).traffic_flow_bandwidth)).sum

/-- The list of traffic flows newly re-routed by a move transaction, in
processing order: per moved router block, the flows associated to it that
are not already in the Affected-Flow Set. -/
def new_affected_flows (tf : NocTrafficFlows) :
    List ClusterBlockId → List NocTrafficFlowId → List NocTrafficFlowId
  | [], _ => []
  | b :: bs, seen =>
    if tf.is_noc_router_block b then
      let fresh := (traffic_flows_associated_to_router_block tf b).filter
        (fun f => decide (f ∉ seen))
      fresh ++ new_affected_flows tf bs (seen ++ fresh)
    else new_affected_flows tf bs seen

/-- The unconditional body of `process_affected_flow`: processing of one
traffic flow that is not yet in the transaction's Affected-Flow Set. -/
def process_affected_flow_unchecked (tf : NocTrafficFlows)
    (noc_flows_router : NocRouting) (placed : BlockLocations)
    (noc_opts : t_noc_opts) (acc : NocMoveAcc) (f : NocTrafficFlowId) : NocMoveAcc :=
  let info := tf.flow_info f
  let old_bw_cost := calculate_traffic_flow_aggregate_bandwidth_cost
    (acc.state.traffic_flow_routes f) info
  let old_lat_cost := calculate_traffic_flow_latency_cost
    (acc.state.traffic_flow_routes f) acc.state.noc_model info noc_opts
  let s' := re_route_traffic_flow f tf noc_flows_router placed acc.state
  let new_bw_cost := calculate_traffic_flow_aggregate_bandwidth_cost
    (s'.traffic_flow_routes f) info
  let new_lat_cost := calculate_traffic_flow_latency_cost
    (s'.traffic_flow_routes f) s'.noc_model info noc_opts
  { state := s',
    updated_traffic_flows := acc.updated_traffic_flows ++ [f],
    affected_count := acc.affected_count + 1,
    noc_aggregate_bandwidth_delta_c :=
      acc.noc_aggregate_bandwidth_delta_c + (new_bw_cost - old_bw_cost),
    noc_latency_delta_c := acc.noc_latency_delta_c + (new_lat_cost - old_lat_cost) }

/-- Sequential re-routing of a list of traffic flows (the state component of
a move transaction or of a revert, flattened to one list of flows). -/
def re_route_flows_fold (tf : NocTrafficFlows) (noc_flows_router : NocRouting)
    (placed : BlockLocations) (L : List NocTrafficFlowId) (s : NocPlaceState) :
    NocPlaceState :=
  L.foldl (fun s f => re_route_traffic_flow f tf noc_flows_router placed s) s

/-- The aggregate-bandwidth cost change contributed by re-routing one flow
from its route in `s` to its route under the placement `placed`. -/
def flow_bw_delta (tf : NocTrafficFlows) (noc_flows_router : NocRouting)
    (placed : BlockLocations) (s : NocPlaceState) (f : NocTrafficFlowId) : ℚ :=
  calculate_traffic_flow_aggregate_bandwidth_cost
      (get_traffic_flow_route f tf noc_flows_router placed) (tf.flow_info f) -
    calculate_traffic_flow_aggregate_bandwidth_cost
      (s.traffic_flow_routes f) (tf.flow_info f)

/-- The latency cost change contributed by re-routing one flow from its
route in `s` to its route under the placement `placed`. -/
def flow_lat_delta (tf : NocTrafficFlows) (noc_flows_router : NocRouting)
    (placed : BlockLocations) (noc_opts : t_noc_opts) (s : NocPlaceState)
    (f : NocTrafficFlowId) : ℚ :=
  calculate_traffic_flow_latency_cost
      (get_traffic_flow_route f tf noc_flows_router placed) s.noc_model
      (tf.flow_info f) noc_opts -
    calculate_traffic_flow_latency_cost (s.traffic_flow_routes f) s.noc_model
      (tf.flow_info f) noc_opts

/-! ## Basic lemmas about the link-usage updater -/

@[simp]
theorem update_traffic_flow_link_usage_link_ids (r : List NocLinkId)
    (noc : NocStorage) (how : link_usage_update_state) (bw : ℚ) :
    (update_traffic_flow_link_usage r noc how bw).link_ids = noc.link_ids := rfl

@[simp]
theorem update_traffic_flow_link_usage_link_bandwidth (r : List NocLinkId)
    (noc : NocStorage) (how : link_usage_update_state) (bw : ℚ) :
    (update_traffic_flow_link_usage r noc how bw).link_bandwidth =
      noc.link_bandwidth := rfl

@[simp]
theorem update_traffic_flow_link_usage_link_latency (r : List NocLinkId)
    (noc : NocStorage) (how : link_usage_update_state) (bw : ℚ) :
    (update_traffic_flow_link_usage r noc how bw).link_latency =
      noc.link_latency := rfl

@[simp]
theorem update_traffic_flow_link_usage_router_latency (r : List NocLinkId)
    (noc : NocStorage) (how : link_usage_update_state) (bw : ℚ) :
    (update_traffic_flow_link_usage r noc how bw).noc_router_latency =
      noc.noc_router_latency := rfl

theorem foldl_update_usage (r : List NocLinkId) (u : NocLinkId → ℚ) (d : ℚ)
    (x : NocLinkId) :
    r.foldl (fun usage l => Function.update usage l (usage l + d)) u x =
      u x + (r.count x : ℚ) * d := by
  induction r generalizing u with
  | nil => simp
  | cons l rest ih =>
    rw [List.foldl_cons, ih, List.count_cons]
    rcases eq_or_ne x l with h | h
    · subst h
      rw [Function.update_same]
      simp only [beq_self_eq_true, if_true]
      push_cast
      ring
    · rw [Function.update_noteq h]
      have : (l == x) = false := beq_eq_false_iff_ne.mpr (Ne.symm h)
      simp [this]

theorem update_traffic_flow_link_usage_apply (r : List NocLinkId)
    (noc : NocStorage) (how : link_usage_update_state) (bw : ℚ) (x : NocLinkId) :
    (update_traffic_flow_link_usage r noc how bw).bandwidth_usage x =
      noc.bandwidth_usage x + (r.count x : ℚ) * how.delta bw :=
  foldl_update_usage r noc.bandwidth_usage (how.delta bw) x

/-! ## Basic lemmas about single-flow re-routing -/

theorem re_route_traffic_flow_routes (f : NocTrafficFlowId) (tf : NocTrafficFlows)
    (router : NocRouting) (placed : BlockLocations) (s : NocPlaceState) :
    (re_route_traffic_flow f tf router placed s).traffic_flow_routes =
      Function.update s.traffic_flow_routes f
        (get_traffic_flow_route f tf router placed) := rfl

@[simp]
theorem re_route_traffic_flow_link_ids (f : NocTrafficFlowId) (tf : NocTrafficFlows)
    (router : NocRouting) (placed : BlockLocations) (s : NocPlaceState) :
    (re_route_traffic_flow f tf router placed s).noc_model.link_ids =
      s.noc_model.link_ids := rfl

@[simp]
theorem re_route_traffic_flow_link_bandwidth (f : NocTrafficFlowId)
    (tf : NocTrafficFlows) (router : NocRouting) (placed : BlockLocations)
    (s : NocPlaceState) :
    (re_route_traffic_flow f tf router placed s).noc_model.link_bandwidth =
      s.noc_model.link_bandwidth := rfl

@[simp]
theorem re_route_traffic_flow_link_latency (f : NocTrafficFlowId)
    (tf : NocTrafficFlows) (router : NocRouting) (placed : BlockLocations)
    (s : NocPlaceState) :
    (re_route_traffic_flow f tf router placed s).noc_model.link_latency =
      s.noc_model.link_latency := rfl

@[simp]
theorem re_route_traffic_flow_router_latency (f : NocTrafficFlowId)
    (tf : NocTrafficFlows) (router : NocRouting) (placed : BlockLocations)
    (s : NocPlaceState) :
    (re_route_traffic_flow f tf router placed s).noc_model.noc_router_latency =
      s.noc_model.noc_router_latency := rfl

theorem re_route_traffic_flow_usage (f : NocTrafficFlowId) (tf : NocTrafficFlows)
    (router : NocRouting) (placed : BlockLocations) (s : NocPlaceState)
    (x : NocLinkId) :
    (re_route_traffic_flow f tf router placed s).noc_model.bandwidth_usage x =
      s.noc_model.bandwidth_usage x +
        (tf.flow_info f).traffic_flow_bandwidth *
          (((get_traffic_flow_route f tf router placed).count x : ℚ) -
            ((s.traffic_flow_routes f).count x : ℚ)) := by
  show (update_traffic_flow_link_usage _ (update_traffic_flow_link_usage _ _ _ _) _ _).bandwidth_usage x = _
  rw [update_traffic_flow_link_usage_apply, update_traffic_flow_link_usage_apply]
  simp only [link_usage_update_state.delta]
  ring

/-! ## Claim C3: aggregate-bandwidth cost -/

/-- Claim C3: for every routed traffic flow,
`calculate_traffic_flow_aggregate_bandwidth_cost` returns (number of links in
the route) × (bandwidth demand) × (priority weight); a flow with bandwidth 2,
priority 1 and a 3-link route costs 6; and
`comp_noc_aggregate_bandwidth_cost` is the sum of this quantity over all
flows, computed from the Route Store. -/
theorem noc_aggregate_bandwidth_cost_correct :
    (∀ (route : List NocLinkId) (info : t_noc_traffic_flow),
      calculate_traffic_flow_aggregate_bandwidth_cost route info =
        (route.length : ℚ) * info.traffic_flow_bandwidth *
          info.traffic_flow_priority) ∧
    (∀ (tf : NocTrafficFlows) (s : NocPlaceState),
      comp_noc_aggregate_bandwidth_cost tf s =
        (tf.traffic_flow_ids.map (fun f =>
          calculate_traffic_flow_aggregate_bandwidth_cost
            (s.traffic_flow_routes f) (tf.flow_info f))).sum) ∧
    calculate_traffic_flow_aggregate_bandwidth_cost [0, 1, 2] ⟨4, 5, 2, none, 1⟩ = 6 := by
  refine ⟨fun route info => ?_,
    fun tf s => rfl, by norm_num [calculate_traffic_flow_aggregate_bandwidth_cost]⟩
  unfold calculate_traffic_flow_aggregate_bandwidth_cost
  ring

/-! ## Claim C4: latency cost -/

/-- Claim C4: for every routed traffic flow,
`calculate_traffic_flow_latency_cost` returns the priority-scaled sum of the
actual route latency scaled by the user latency weight and the non-negative
constraint gap max(0, latency − constraint) scaled by its weight; the gap
term vanishes when the latency is within the constraint or the flow is
unconstrained. -/
theorem noc_latency_cost_correct (route : List NocLinkId) (noc : NocStorage)
    (opts : t_noc_opts) (src sink : ClusterBlockId) (bw prio c : ℚ) :
    calculate_traffic_flow_latency_cost route noc ⟨src, sink, bw, some c, prio⟩ opts =
      prio * (opts.noc_latency_weighting * traffic_flow_latency noc route +
        opts.noc_latency_constraints_weighting *
          max 0 (traffic_flow_latency noc route - c)) ∧
    0 ≤ max 0 (traffic_flow_latency noc route - c) ∧
    calculate_traffic_flow_latency_cost route noc ⟨src, sink, bw, none, prio⟩ opts =
      prio * (opts.noc_latency_weighting * traffic_flow_latency noc route) ∧
    (traffic_flow_latency noc route ≤ c →
      calculate_traffic_flow_latency_cost route noc ⟨src, sink, bw, some c, prio⟩ opts =
        prio * (opts.noc_latency_weighting * traffic_flow_latency noc route)) ∧
    (c ≤ traffic_flow_latency noc route →
      calculate_traffic_flow_latency_cost route noc ⟨src, sink, bw, some c, prio⟩ opts =
        prio * (opts.noc_latency_weighting * traffic_flow_latency noc route +
          opts.noc_latency_constraints_weighting *
            (traffic_flow_latency noc route - c))) := by
  refine ⟨rfl, le_max_left 0 _, ?_, fun h => ?_, fun h => ?_⟩
  · simp only [calculate_traffic_flow_latency_cost]
    ring
  · show prio * (_ * _ + _ * max 0 (traffic_flow_latency noc route - c)) = _
    rw [max_eq_left (by linarith)]
    ring
  · show prio * (_ * _ + _ * max 0 (traffic_flow_latency noc route - c)) = _
    rw [max_eq_right (by linarith)]

/-- Witness for C4 at a concrete flow: a 3-link route with zero per-link and
router latencies, whose constraint equals its latency, so the constrained
within-bound branch applies and the gap term is zero. -/
theorem noc_latency_cost_correct_witness :
    calculate_traffic_flow_latency_cost [0, 1, 2]
      ⟨[0, 1, 2], fun _ => 1, fun _ => 0, 0, fun _ => 0⟩
      ⟨7, 8, 2, some 0, 5⟩ ⟨3, 11⟩ =
      5 * (3 * traffic_flow_latency
        ⟨[0, 1, 2], fun _ => 1, fun _ => 0, 0, fun _ => 0⟩ [0, 1, 2]) :=
  (noc_latency_cost_correct [0, 1, 2]
    ⟨[0, 1, 2], fun _ => 1, fun _ => 0, 0, fun _ => 0⟩
    ⟨3, 11⟩ 7 8 2 5 0).2.2.2.1 (by simp [traffic_flow_latency])

/-! ## Claim C6: no-op fast path -/

theorem foldl_move_step_of_no_router (tf : NocTrafficFlows) (router : NocRouting)
    (placed : BlockLocations) (opts : t_noc_opts) (blocks : List ClusterBlockId)
    (h : ∀ b ∈ blocks, tf.is_noc_router_block b = false) :
    ∀ acc : NocMoveAcc,
      blocks.foldl
        (fun acc b =>
          if tf.is_noc_router_block b then
            re_route_associated_traffic_flows b tf router placed opts acc
          else acc) acc = acc := by
  induction blocks with
  | nil => intro acc; rfl
  | cons b bs ih =>
    intro acc
    rw [List.foldl_cons]
    have hb : tf.is_noc_router_block b = false := h b (List.mem_cons_self b bs)
    simp only [hb, Bool.false_eq_true, if_false]
    exact ih (fun x hx => h x (List.mem_cons_of_mem b hx)) acc

/-- Claim C6: a move transaction in which no moved block maps to a NoC router
is a no-op: `find_affected_noc_routers_and_update_noc_costs` returns a zero
affected-flow count, zero aggregate-bandwidth and latency deltas, an empty
Affected-Flow Set, and the Topology Model and Route Store unchanged. -/
theorem find_affected_no_router_noop (blocks : List ClusterBlockId)
    (tf : NocTrafficFlows) (router : NocRouting) (placed : BlockLocations)
    (opts : t_noc_opts) (s : NocPlaceState)
    (h : ∀ b ∈ blocks, tf.is_noc_router_block b = false) :
    find_affected_noc_routers_and_update_noc_costs blocks tf router placed opts s =
      ⟨s, [], 0, 0, 0⟩ :=
  foldl_move_step_of_no_router tf router placed opts blocks h ⟨s, [], 0, 0, 0⟩

/-- Witness for C6: moving one non-router block over a one-flow registry. -/
theorem find_affected_no_router_noop_witness :
    find_affected_noc_routers_and_update_noc_costs [5]
      ⟨[0], fun _ => ⟨1, 2, 3, none, 1⟩, fun _ => false⟩ (fun a b => [a + b])
      (fun b => b) ⟨1, 1⟩
      ⟨⟨[0], fun _ => 1, fun _ => 1, 0, fun _ => 0⟩, fun _ => []⟩ =
      ⟨⟨⟨[0], fun _ => 1, fun _ => 1, 0, fun _ => 0⟩, fun _ => []⟩, [], 0, 0, 0⟩ :=
  find_affected_no_router_noop [5]
    ⟨[0], fun _ => ⟨1, 2, 3, none, 1⟩, fun _ => false⟩ (fun a b => [a + b])
    (fun b => b) ⟨1, 1⟩
    ⟨⟨[0], fun _ => 1, fun _ => 1, 0, fun _ => 0⟩, fun _ => []⟩ (by decide)

/-! ## Claim C7: normalization factors are bounded -/

/-- Claim C7: after every call to `update_noc_normalization_factors`, the
aggregate-bandwidth inverse normalization factor is at most 1 and the
latency inverse normalization factor is at most 10¹², for every value of the
underlying cost terms, including zero. -/
theorem noc_normalization_factors_bounded (costs : t_placer_costs) :
    (update_noc_normalization_factors costs).noc_aggregate_bandwidth_cost_norm ≤ 1 ∧
    (update_noc_normalization_factors costs).noc_latency_cost_norm ≤ 10 ^ 12 := by
  constructor
  · show clamped_inverse _ MAX_INV_NOC_AGGREGATE_BANDWIDTH_COST ≤ 1
    unfold clamped_inverse MAX_INV_NOC_AGGREGATE_BANDWIDTH_COST
    split
    · exact le_refl 1
    · exact min_le_right _ _
  · show clamped_inverse _ MAX_INV_NOC_LATENCY_COST ≤ 10 ^ 12
    unfold clamped_inverse MAX_INV_NOC_LATENCY_COST
    split
    · exact le_refl _
    · exact min_le_right _ _

/-! ## Claim C9: frame property of the link-usage updater -/

/-- Claim C9: for every route and both directions of
`link_usage_update_state`, `update_traffic_flow_link_usage` leaves every
link's static metadata and the usage of every link outside the route
unchanged, and adjusts the usage of each link on the route by exactly the
traffic flow's bandwidth (added for increment, subtracted for decrement). -/
theorem update_traffic_flow_link_usage_frame (r : List NocLinkId)
    (noc : NocStorage) (bw : ℚ) (x : NocLinkId) (hnd : r.Nodup) :
    (∀ how : link_usage_update_state,
      (update_traffic_flow_link_usage r noc how bw).link_ids = noc.link_ids ∧
      (update_traffic_flow_link_usage r noc how bw).link_bandwidth =
        noc.link_bandwidth ∧
      (update_traffic_flow_link_usage r noc how bw).link_latency =
        noc.link_latency ∧
      (update_traffic_flow_link_usage r noc how bw).noc_router_latency =
        noc.noc_router_latency) ∧
    (x ∉ r → ∀ how : link_usage_update_state,
      (update_traffic_flow_link_usage r noc how bw).bandwidth_usage x =
        noc.bandwidth_usage x) ∧
    (x ∈ r →
      (update_traffic_flow_link_usage r noc .increment bw).bandwidth_usage x =
        noc.bandwidth_usage x + bw ∧
      (update_traffic_flow_link_usage r noc .decrement bw).bandwidth_usage x =
        noc.bandwidth_usage x - bw) := by
  refine ⟨fun how => ⟨rfl, rfl, rfl, rfl⟩, fun hx how => ?_, fun hx => ?_⟩
  · rw [update_traffic_flow_link_usage_apply, List.count_eq_zero.mpr hx]
    simp
  · have h1 : r.count x = 1 := List.count_eq_one_of_mem hnd hx
    constructor
    · rw [update_traffic_flow_link_usage_apply, h1]
      simp [link_usage_update_state.delta]
    · rw [update_traffic_flow_link_usage_apply, h1]
      simp [link_usage_update_state.delta]
      ring

/-- Witness for C9: a concrete two-link route, incrementing by 2 a link
whose usage starts at 7. -/
theorem update_traffic_flow_link_usage_frame_witness :
    (update_traffic_flow_link_usage [0, 1]
      ⟨[0, 1], fun _ => 100, fun _ => 1, 0, fun _ => 7⟩ .increment 2).bandwidth_usage 0 =
      (7 : ℚ) + 2 :=
  ((update_traffic_flow_link_usage_frame [0, 1]
    ⟨[0, 1], fun _ => 100, fun _ => 1, 0, fun _ => 7⟩ 2 0 (by decide)).2.2
    (by decide)).1

/-! ## Claim C10: determinism of move-transaction processing -/

/-- Claim C10: `find_affected_noc_routers_and_update_noc_costs` is
deterministic: from identical Topology Model, Route Store, placement,
options and move-transaction inputs, with the Routing Strategy a function of
its inputs, it produces identical deltas, an identical affected-flow count
and identical resulting state. -/
theorem find_affected_deterministic (tf1 tf2 : NocTrafficFlows)
    (r1 r2 : NocRouting) (p1 p2 : BlockLocations) (o1 o2 : t_noc_opts)
    (s1 s2 : NocPlaceState) (bl1 bl2 : List ClusterBlockId) (htf : tf1 = tf2)
    (hr : ∀ a b, r1 a b = r2 a b) (hp : ∀ b, p1 b = p2 b) (ho : o1 = o2)
    (hs : s1 = s2) (hbl : bl1 = bl2) :
    find_affected_noc_routers_and_update_noc_costs bl1 tf1 r1 p1 o1 s1 =
      find_affected_noc_routers_and_update_noc_costs bl2 tf2 r2 p2 o2 s2 := by
  have hr2 : r1 = r2 := funext fun a => funext fun b => hr a b
  have hp2 : p1 = p2 := funext hp
  subst htf hr2 hp2 ho hs hbl
  rfl

/-- Witness for C10: two runs on one concrete input coincide. -/
theorem find_affected_deterministic_witness :
    find_affected_noc_routers_and_update_noc_costs [0]
      ⟨[0], fun _ => ⟨0, 1, 1, none, 1⟩, fun _ => true⟩ (fun a b => [a + b])
      (fun b => b) ⟨1, 1⟩
      ⟨⟨[0], fun _ => 1, fun _ => 1, 0, fun _ => 0⟩, fun _ => []⟩ =
    find_affected_noc_routers_and_update_noc_costs [0]
      ⟨[0], fun _ => ⟨0, 1, 1, none, 1⟩, fun _ => true⟩ (fun a b => [a + b])
      (fun b => b) ⟨1, 1⟩
      ⟨⟨[0], fun _ => 1, fun _ => 1, 0, fun _ => 0⟩, fun _ => []⟩ :=
  find_affected_deterministic _ _ _ _ _ _ _ _ _ _ [0] [0] rfl
    (fun _ _ => rfl) (fun _ => rfl) rfl rfl rfl

/-! ## List helper lemmas -/

theorem sum_map_zero_of (L : List NocTrafficFlowId) (g : NocTrafficFlowId → ℚ)
    (h : ∀ a ∈ L, g a = 0) : (L.map g).sum = 0 := by
  induction L with
  | nil => rfl
  | cons a rest ih =>
    rw [List.map_cons, List.sum_cons, h a (List.mem_cons_self a rest),
      ih (fun x hx => h x (List.mem_cons_of_mem a hx)), add_zero]

theorem sum_map_add_eq (L : List NocTrafficFlowId) (g h : NocTrafficFlowId → ℚ) :
    (L.map g).sum + (L.map h).sum = (L.map (fun a => g a + h a)).sum := by
  induction L with
  | nil => simp
  | cons a rest ih =>
    simp only [List.map_cons, List.sum_cons]
    rw [← ih]
    ring

theorem sum_map_point_change (L : List NocTrafficFlowId) (a0 : NocTrafficFlowId)
    (g g' : NocTrafficFlowId → ℚ) (hnd : L.Nodup) (ha : a0 ∈ L)
    (hoff : ∀ a ∈ L, a ≠ a0 → g' a = g a) :
    (L.map g').sum = (L.map g).sum + (g' a0 - g a0) := by
  induction L with
  | nil => cases ha
  | cons a rest ih =>
    simp only [List.map_cons, List.sum_cons]
    by_cases haa : a = a0
    · subst haa
      have hrest : rest.map g' = rest.map g := by
        refine List.map_congr_left (fun x hx => ?_)
        exact hoff x (List.mem_cons_of_mem a hx)
          (fun hxa => (List.nodup_cons.mp hnd).1 (hxa ▸ hx))
      rw [hrest]
      ring
    · have hmem : a0 ∈ rest := by
        rcases List.mem_cons.mp ha with h | h
        · exact absurd h.symm haa
        · exact h
      rw [hoff a (List.mem_cons_self a rest) haa,
        ih (List.nodup_cons.mp hnd).2 hmem
          (fun x hx hx0 => hoff x (List.mem_cons_of_mem a hx) hx0)]
      ring

theorem sum_map_of_support_subset (L M : List NocTrafficFlowId)
    (g : NocTrafficFlowId → ℚ) (hL : L.Nodup) (hM : M.Nodup)
    (hsub : ∀ a ∈ L, a ∈ M) (hz : ∀ a ∈ M, a ∉ L → g a = 0) :
    (M.map g).sum = (L.map g).sum := by
  rw [← List.sum_toFinset g hM, ← List.sum_toFinset g hL]
  refine (Finset.sum_subset (fun x hx => ?_) (fun x hxM hxL => ?_)).symm
  · exact List.mem_toFinset.mpr (hsub x (List.mem_toFinset.mp hx))
  · exact hz x (List.mem_toFinset.mp hxM) (fun h => hxL (List.mem_toFinset.mpr h))

theorem filter_map_sum_indicator (L : List NocTrafficFlowId)
    (p : NocTrafficFlowId → Bool) (g : NocTrafficFlowId → ℚ) :
    ((L.filter p).map g).sum = (L.map (fun a => if p a then g a else 0)).sum := by
  induction L with
  | nil => rfl
  | cons a rest ih =>
    by_cases hp : p a
    · rw [List.filter_cons_of_pos hp, List.map_cons, List.sum_cons, ih,
        List.map_cons, List.sum_cons, if_pos hp]
    · rw [List.filter_cons_of_neg hp, ih, List.map_cons, List.sum_cons,
        if_neg hp, zero_add]

theorem count_cast_indicator (r : List NocLinkId) (x : NocLinkId)
    (hnd : r.Nodup) : ((r.count x : ℕ) : ℚ) = if x ∈ r then 1 else 0 := by
  by_cases hx : x ∈ r
  · rw [List.count_eq_one_of_mem hnd hx, if_pos hx]
    norm_num
  · rw [List.count_eq_zero.mpr hx, if_neg hx]
    norm_num

/-! ## Characterization of sequential flow re-routing -/

theorem re_route_flows_fold_nil (tf : NocTrafficFlows) (router : NocRouting)
    (placed : BlockLocations) (s : NocPlaceState) :
    re_route_flows_fold tf router placed [] s = s := rfl

theorem re_route_flows_fold_cons (tf : NocTrafficFlows) (router : NocRouting)
    (placed : BlockLocations) (f : NocTrafficFlowId) (rest : List NocTrafficFlowId)
    (s : NocPlaceState) :
    re_route_flows_fold tf router placed (f :: rest) s =
      re_route_flows_fold tf router placed rest
        (re_route_traffic_flow f tf router placed s) := rfl

theorem re_route_flows_fold_statics (tf : NocTrafficFlows) (router : NocRouting)
    (placed : BlockLocations) (L : List NocTrafficFlowId) :
    ∀ s : NocPlaceState,
      (re_route_flows_fold tf router placed L s).noc_model.link_ids =
        s.noc_model.link_ids ∧
      (re_route_flows_fold tf router placed L s).noc_model.link_bandwidth =
        s.noc_model.link_bandwidth ∧
      (re_route_flows_fold tf router placed L s).noc_model.link_latency =
        s.noc_model.link_latency ∧
      (re_route_flows_fold tf router placed L s).noc_model.noc_router_latency =
        s.noc_model.noc_router_latency := by
  induction L with
  | nil => exact fun s => ⟨rfl, rfl, rfl, rfl⟩
  | cons f rest ih =>
    intro s
    rw [re_route_flows_fold_cons]
    obtain ⟨h1, h2, h3, h4⟩ := ih (re_route_traffic_flow f tf router placed s)
    exact ⟨h1.trans (by simp), h2.trans (by simp), h3.trans (by simp),
      h4.trans (by simp)⟩

theorem re_route_flows_fold_routes (tf : NocTrafficFlows) (router : NocRouting)
    (placed : BlockLocations) (L : List NocTrafficFlowId) :
    ∀ (s : NocPlaceState) (g : NocTrafficFlowId),
      (re_route_flows_fold tf router placed L s).traffic_flow_routes g =
        if g ∈ L then get_traffic_flow_route g tf router placed
        else s.traffic_flow_routes g := by
  induction L with
  | nil => intro s g; simp [re_route_flows_fold_nil]
  | cons f rest ih =>
    intro s g
    rw [re_route_flows_fold_cons, ih]
    by_cases hg : g ∈ rest
    · simp [hg, List.mem_cons]
    · by_cases hgf : g = f
      · subst hgf
        simp [hg, re_route_traffic_flow_routes, Function.update_same]
      · have : g ∉ f :: rest := by
          simp [List.mem_cons, hgf, hg]
        simp [hg, this, re_route_traffic_flow_routes, Function.update_noteq hgf]

theorem re_route_flows_fold_usage (tf : NocTrafficFlows) (router : NocRouting)
    (placed : BlockLocations) (L : List NocTrafficFlowId) (x : NocLinkId) :
    ∀ s : NocPlaceState, L.Nodup →
      (re_route_flows_fold tf router placed L s).noc_model.bandwidth_usage x =
        s.noc_model.bandwidth_usage x +
          (L.map (fun f => (tf.flow_info f).traffic_flow_bandwidth *
            (((get_traffic_flow_route f tf router placed).count x : ℚ) -
              ((s.traffic_flow_routes f).count x : ℚ)))).sum := by
  induction L with
  | nil => intro s _; simp [re_route_flows_fold_nil]
  | cons f rest ih =>
    intro s hnd
    rw [re_route_flows_fold_cons,
      ih (re_route_traffic_flow f tf router placed s) (List.nodup_cons.mp hnd).2]
    have hmap :
        rest.map (fun f' => (tf.flow_info f').traffic_flow_bandwidth *
          (((get_traffic_flow_route f' tf router placed).count x : ℚ) -
            (((re_route_traffic_flow f tf router placed s).traffic_flow_routes f').count x : ℚ))) =
        rest.map (fun f' => (tf.flow_info f').traffic_flow_bandwidth *
          (((get_traffic_flow_route f' tf router placed).count x : ℚ) -
            ((s.traffic_flow_routes f').count x : ℚ))) := by
      refine List.map_congr_left (fun f' hf' => ?_)
      have hne : f' ≠ f := fun h => (List.nodup_cons.mp hnd).1 (h ▸ hf')
      rw [re_route_traffic_flow_routes, Function.update_noteq hne]
    rw [hmap, re_route_traffic_flow_usage, List.map_cons, List.sum_cons]
    ring

/-! ## Step lemmas for move-transaction processing -/

theorem process_affected_flow_of_mem (tf : NocTrafficFlows) (router : NocRouting)
    (placed : BlockLocations) (opts : t_noc_opts) (acc : NocMoveAcc)
    (f : NocTrafficFlowId) (h : f ∈ acc.updated_traffic_flows) :
    process_affected_flow tf router placed opts acc f = acc := by
  simp [process_affected_flow, h]

theorem process_affected_flow_of_not_mem (tf : NocTrafficFlows)
    (router : NocRouting) (placed : BlockLocations) (opts : t_noc_opts)
    (acc : NocMoveAcc) (f : NocTrafficFlowId)
    (h : f ∉ acc.updated_traffic_flows) :
    process_affected_flow tf router placed opts acc f =
      process_affected_flow_unchecked tf router placed opts acc f := by
  simp [process_affected_flow, process_affected_flow_unchecked, h]

theorem calculate_traffic_flow_latency_cost_congr (r : List NocLinkId)
    (noc1 noc2 : NocStorage) (info : t_noc_traffic_flow) (opts : t_noc_opts)
    (hl : noc1.link_latency = noc2.link_latency)
    (hrl : noc1.noc_router_latency = noc2.noc_router_latency) :
    calculate_traffic_flow_latency_cost r noc1 info opts =
      calculate_traffic_flow_latency_cost r noc2 info opts := by
  unfold calculate_traffic_flow_latency_cost traffic_flow_latency
  rw [hl, hrl]

/-! ## The flat (deduplicated) form of a move transaction -/

theorem flat_fold_state (tf : NocTrafficFlows) (router : NocRouting)
    (placed : BlockLocations) (opts : t_noc_opts) (L : List NocTrafficFlowId) :
    ∀ acc : NocMoveAcc,
      (L.foldl (process_affected_flow_unchecked tf router placed opts) acc).state =
        re_route_flows_fold tf router placed L acc.state := by
  induction L with
  | nil => intro acc; rfl
  | cons f rest ih =>
    intro acc
    rw [List.foldl_cons, re_route_flows_fold_cons, ih]
    rfl

theorem flat_fold_updated (tf : NocTrafficFlows) (router : NocRouting)
    (placed : BlockLocations) (opts : t_noc_opts) (L : List NocTrafficFlowId) :
    ∀ acc : NocMoveAcc,
      (L.foldl (process_affected_flow_unchecked tf router placed opts)
        acc).updated_traffic_flows = acc.updated_traffic_flows ++ L := by
  induction L with
  | nil => intro acc; simp
  | cons f rest ih =>
    intro acc
    rw [List.foldl_cons, ih]
    show (acc.updated_traffic_flows ++ [f]) ++ rest = _
    simp

theorem flat_fold_count (tf : NocTrafficFlows) (router : NocRouting)
    (placed : BlockLocations) (opts : t_noc_opts) (L : List NocTrafficFlowId) :
    ∀ acc : NocMoveAcc,
      (L.foldl (process_affected_flow_unchecked tf router placed opts)
        acc).affected_count = acc.affected_count + L.length := by
  induction L with
  | nil => intro acc; simp
  | cons f rest ih =>
    intro acc
    rw [List.foldl_cons, ih]
    show (acc.affected_count + 1) + rest.length = _
    rw [List.length_cons]
    omega

theorem flat_fold_bw_delta (tf : NocTrafficFlows) (router : NocRouting)
    (placed : BlockLocations) (opts : t_noc_opts) (L : List NocTrafficFlowId) :
    ∀ acc : NocMoveAcc, L.Nodup →
      (L.foldl (process_affected_flow_unchecked tf router placed opts)
        acc).noc_aggregate_bandwidth_delta_c =
        acc.noc_aggregate_bandwidth_delta_c +
          (L.map (flow_bw_delta tf router placed acc.state)).sum := by
  induction L with
  | nil => intro acc _; simp
  | cons f rest ih =>
    intro acc hnd
    rw [List.foldl_cons, ih _ (List.nodup_cons.mp hnd).2]
    have hstep :
        (process_affected_flow_unchecked tf router placed opts acc
          f).noc_aggregate_bandwidth_delta_c =
        acc.noc_aggregate_bandwidth_delta_c +
          flow_bw_delta tf router placed acc.state f := by
      show acc.noc_aggregate_bandwidth_delta_c +
        (calculate_traffic_flow_aggregate_bandwidth_cost
          ((re_route_traffic_flow f tf router placed
            acc.state).traffic_flow_routes f) (tf.flow_info f) -
          calculate_traffic_flow_aggregate_bandwidth_cost
            (acc.state.traffic_flow_routes f) (tf.flow_info f)) = _
      rw [re_route_traffic_flow_routes, Function.update_same]
      rfl
    have hmap :
        rest.map (flow_bw_delta tf router placed
          (process_affected_flow_unchecked tf router placed opts acc f).state) =
        rest.map (flow_bw_delta tf router placed acc.state) := by
      refine List.map_congr_left (fun f' hf' => ?_)
      have hne : f' ≠ f := fun h => (List.nodup_cons.mp hnd).1 (h ▸ hf')
      unfold flow_bw_delta
      have : (process_affected_flow_unchecked tf router placed opts acc
          f).state.traffic_flow_routes f' = acc.state.traffic_flow_routes f' := by
        show (re_route_traffic_flow f tf router placed
          acc.state).traffic_flow_routes f' = _
        rw [re_route_traffic_flow_routes, Function.update_noteq hne]
      rw [this]
    rw [hmap, hstep, List.map_cons, List.sum_cons]
    ring

theorem flow_lat_delta_congr (tf : NocTrafficFlows) (router : NocRouting)
    (placed : BlockLocations) (opts : t_noc_opts) (s1 s2 : NocPlaceState)
    (f : NocTrafficFlowId)
    (hroutes : s1.traffic_flow_routes f = s2.traffic_flow_routes f)
    (hl : s1.noc_model.link_latency = s2.noc_model.link_latency)
    (hrl : s1.noc_model.noc_router_latency = s2.noc_model.noc_router_latency) :
    flow_lat_delta tf router placed opts s1 f =
      flow_lat_delta tf router placed opts s2 f := by
  unfold flow_lat_delta
  rw [hroutes,
    calculate_traffic_flow_latency_cost_congr _ s1.noc_model s2.noc_model _ _ hl hrl,
    calculate_traffic_flow_latency_cost_congr _ s1.noc_model s2.noc_model _ _ hl hrl]

theorem flat_fold_lat_delta (tf : NocTrafficFlows) (router : NocRouting)
    (placed : BlockLocations) (opts : t_noc_opts) (L : List NocTrafficFlowId) :
    ∀ acc : NocMoveAcc, L.Nodup →
      (L.foldl (process_affected_flow_unchecked tf router placed opts)
        acc).noc_latency_delta_c =
        acc.noc_latency_delta_c +
          (L.map (flow_lat_delta tf router placed opts acc.state)).sum := by
  induction L with
  | nil => intro acc _; simp
  | cons f rest ih =>
    intro acc hnd
    rw [List.foldl_cons, ih _ (List.nodup_cons.mp hnd).2]
    have hstep :
        (process_affected_flow_unchecked tf router placed opts acc
          f).noc_latency_delta_c =
        acc.noc_latency_delta_c + flow_lat_delta tf router placed opts acc.state f := by
      show acc.noc_latency_delta_c +
        (calculate_traffic_flow_latency_cost
          ((re_route_traffic_flow f tf router placed
            acc.state).traffic_flow_routes f)
          (re_route_traffic_flow f tf router placed acc.state).noc_model
          (tf.flow_info f) opts -
          calculate_traffic_flow_latency_cost (acc.state.traffic_flow_routes f)
            acc.state.noc_model (tf.flow_info f) opts) = _
      rw [re_route_traffic_flow_routes, Function.update_same,
        calculate_traffic_flow_latency_cost_congr _
          (re_route_traffic_flow f tf router placed acc.state).noc_model
          acc.state.noc_model _ _
          (re_route_traffic_flow_link_latency f tf router placed acc.state)
          (re_route_traffic_flow_router_latency f tf router placed acc.state)]
      rfl
    have hmap :
        rest.map (flow_lat_delta tf router placed opts
          (process_affected_flow_unchecked tf router placed opts acc f).state) =
        rest.map (flow_lat_delta tf router placed opts acc.state) := by
      refine List.map_congr_left (fun f' hf' => ?_)
      have hne : f' ≠ f := fun h => (List.nodup_cons.mp hnd).1 (h ▸ hf')
      refine flow_lat_delta_congr tf router placed opts _ _ f' ?_
        (re_route_traffic_flow_link_latency f tf router placed acc.state)
        (re_route_traffic_flow_router_latency f tf router placed acc.state)
      show (re_route_traffic_flow f tf router placed
        acc.state).traffic_flow_routes f' = _
      rw [re_route_traffic_flow_routes, Function.update_noteq hne]
    rw [hmap, hstep, List.map_cons, List.sum_cons]
    ring

/-! ## From the nested folds to the flat deduplicated list -/

theorem checked_fold_eq_flat (tf : NocTrafficFlows) (router : NocRouting)
    (placed : BlockLocations) (opts : t_noc_opts) (fl : List NocTrafficFlowId) :
    ∀ acc : NocMoveAcc, fl.Nodup →
      fl.foldl (process_affected_flow tf router placed opts) acc =
        (fl.filter (fun f => decide (f ∉ acc.updated_traffic_flows))).foldl
          (process_affected_flow_unchecked tf router placed opts) acc := by
  induction fl with
  | nil => intro acc _; rfl
  | cons f rest ih =>
    intro acc hnd
    rw [List.foldl_cons]
    by_cases hf : f ∈ acc.updated_traffic_flows
    · rw [process_affected_flow_of_mem tf router placed opts acc f hf,
        List.filter_cons_of_neg (by simp [hf])]
      exact ih acc (List.nodup_cons.mp hnd).2
    · rw [process_affected_flow_of_not_mem tf router placed opts acc f hf,
        List.filter_cons_of_pos (by simp [hf]), List.foldl_cons]
      have hcong :
          rest.filter (fun g => decide (g ∉
            (process_affected_flow_unchecked tf router placed opts acc
              f).updated_traffic_flows)) =
          rest.filter (fun g => decide (g ∉ acc.updated_traffic_flows)) := by
        refine List.filter_congr (fun g hg => ?_)
        have hgf : g ≠ f := fun h => (List.nodup_cons.mp hnd).1 (h ▸ hg)
        have hupd : (process_affected_flow_unchecked tf router placed opts acc
            f).updated_traffic_flows = acc.updated_traffic_flows ++ [f] := rfl
        rw [hupd]
        exact decide_eq_decide.mpr (by simp [List.mem_append, hgf])
      rw [← hcong]
      exact ih (process_affected_flow_unchecked tf router placed opts acc f)
        (List.nodup_cons.mp hnd).2

theorem move_fold_eq_flat (tf : NocTrafficFlows) (router : NocRouting)
    (placed : BlockLocations) (opts : t_noc_opts)
    (hnd : tf.traffic_flow_ids.Nodup) (blocks : List ClusterBlockId) :
    ∀ acc : NocMoveAcc,
      blocks.foldl
        (fun acc b =>
          if tf.is_noc_router_block b then
            re_route_associated_traffic_flows b tf router placed opts acc
          else acc) acc =
        (new_affected_flows tf blocks acc.updated_traffic_flows).foldl
          (process_affected_flow_unchecked tf router placed opts) acc := by
  induction blocks with
  | nil => intro acc; rfl
  | cons b bs ih =>
    intro acc
    rw [List.foldl_cons]
    by_cases hb : tf.is_noc_router_block b
    · rw [if_pos hb]
      have hfl : (traffic_flows_associated_to_router_block tf b).Nodup :=
        List.Nodup.filter _ hnd
      have hinner : re_route_associated_traffic_flows b tf router placed opts acc =
          ((traffic_flows_associated_to_router_block tf b).filter
            (fun f => decide (f ∉ acc.updated_traffic_flows))).foldl
            (process_affected_flow_unchecked tf router placed opts) acc :=
        checked_fold_eq_flat tf router placed opts _ acc hfl
      rw [hinner, ih]
      have hupd : (((traffic_flows_associated_to_router_block tf b).filter
          (fun f => decide (f ∉ acc.updated_traffic_flows))).foldl
          (process_affected_flow_unchecked tf router placed opts)
          acc).updated_traffic_flows =
          acc.updated_traffic_flows ++
            (traffic_flows_associated_to_router_block tf b).filter
              (fun f => decide (f ∉ acc.updated_traffic_flows)) :=
        flat_fold_updated tf router placed opts _ acc
      rw [hupd]
      show _ = (new_affected_flows tf (b :: bs) acc.updated_traffic_flows).foldl
        (process_affected_flow_unchecked tf router placed opts) acc
      rw [new_affected_flows]
      simp only [hb, if_true, List.foldl_append]
    · rw [if_neg hb, ih]
      show _ = (new_affected_flows tf (b :: bs) acc.updated_traffic_flows).foldl
        (process_affected_flow_unchecked tf router placed opts) acc
      rw [new_affected_flows]
      simp only [hb, Bool.false_eq_true, if_false]

theorem find_affected_eq_flat (tf : NocTrafficFlows) (router : NocRouting)
    (placed : BlockLocations) (opts : t_noc_opts)
    (hnd : tf.traffic_flow_ids.Nodup) (blocks : List ClusterBlockId)
    (s : NocPlaceState) :
    find_affected_noc_routers_and_update_noc_costs blocks tf router placed opts s =
      (new_affected_flows tf blocks []).foldl
        (process_affected_flow_unchecked tf router placed opts) ⟨s, [], 0, 0, 0⟩ :=
  move_fold_eq_flat tf router placed opts hnd blocks ⟨s, [], 0, 0, 0⟩

/-! ## The flat form of a revert -/

theorem revert_flat_fold_fst (tf : NocTrafficFlows) (router : NocRouting)
    (placed : BlockLocations) (L : List NocTrafficFlowId) :
    ∀ p : NocPlaceState × List NocTrafficFlowId,
      (L.foldl (fun acc f =>
        (re_route_traffic_flow f tf router placed acc.1, acc.2 ++ [f])) p).1 =
        re_route_flows_fold tf router placed L p.1 := by
  induction L with
  | nil => intro p; rfl
  | cons f rest ih =>
    intro p
    rw [List.foldl_cons, re_route_flows_fold_cons, ih]

theorem revert_flat_fold_snd (tf : NocTrafficFlows) (router : NocRouting)
    (placed : BlockLocations) (L : List NocTrafficFlowId) :
    ∀ p : NocPlaceState × List NocTrafficFlowId,
      (L.foldl (fun acc f =>
        (re_route_traffic_flow f tf router placed acc.1, acc.2 ++ [f])) p).2 =
        p.2 ++ L := by
  induction L with
  | nil => intro p; simp
  | cons f rest ih =>
    intro p
    rw [List.foldl_cons, ih]
    simp

theorem revert_checked_eq_flat (tf : NocTrafficFlows) (router : NocRouting)
    (placed : BlockLocations) (fl : List NocTrafficFlowId) :
    ∀ p : NocPlaceState × List NocTrafficFlowId, fl.Nodup →
      fl.foldl (revert_process_flow tf router placed) p =
        (fl.filter (fun f => decide (f ∉ p.2))).foldl
          (fun acc f =>
            (re_route_traffic_flow f tf router placed acc.1, acc.2 ++ [f])) p := by
  induction fl with
  | nil => intro p _; rfl
  | cons f rest ih =>
    intro p hnd
    rw [List.foldl_cons]
    by_cases hf : f ∈ p.2
    · rw [show revert_process_flow tf router placed p f = p by
        simp [revert_process_flow, hf],
        List.filter_cons_of_neg (by simp [hf])]
      exact ih p (List.nodup_cons.mp hnd).2
    · rw [show revert_process_flow tf router placed p f =
          (re_route_traffic_flow f tf router placed p.1, p.2 ++ [f]) by
        simp [revert_process_flow, hf],
        List.filter_cons_of_pos (by simp [hf]), List.foldl_cons]
      have hcong :
          rest.filter (fun g => decide (g ∉ p.2 ++ [f])) =
          rest.filter (fun g => decide (g ∉ p.2)) := by
        refine List.filter_congr (fun g hg => ?_)
        have hgf : g ≠ f := fun h => (List.nodup_cons.mp hnd).1 (h ▸ hg)
        exact decide_eq_decide.mpr (by simp [List.mem_append, hgf])
      rw [← hcong]
      exact ih (re_route_traffic_flow f tf router placed p.1, p.2 ++ [f])
        (List.nodup_cons.mp hnd).2

theorem revert_fold_eq_flat (tf : NocTrafficFlows) (router : NocRouting)
    (placed : BlockLocations) (hnd : tf.traffic_flow_ids.Nodup)
    (blocks : List ClusterBlockId) :
    ∀ p : NocPlaceState × List NocTrafficFlowId,
      blocks.foldl
        (fun acc b =>
          if tf.is_noc_router_block b then
            (traffic_flows_associated_to_router_block tf b).foldl
              (revert_process_flow tf router placed) acc
          else acc) p =
        (new_affected_flows tf blocks p.2).foldl
          (fun acc f =>
            (re_route_traffic_flow f tf router placed acc.1, acc.2 ++ [f])) p := by
  induction blocks with
  | nil => intro p; rfl
  | cons b bs ih =>
    intro p
    rw [List.foldl_cons]
    by_cases hb : tf.is_noc_router_block b
    · rw [if_pos hb]
      have hfl : (traffic_flows_associated_to_router_block tf b).Nodup :=
        List.Nodup.filter _ hnd
      rw [revert_checked_eq_flat tf router placed _ p hfl, ih]
      have hupd : (((traffic_flows_associated_to_router_block tf b).filter
          (fun f => decide (f ∉ p.2))).foldl
          (fun acc f =>
            (re_route_traffic_flow f tf router placed acc.1, acc.2 ++ [f])) p).2 =
          p.2 ++ (traffic_flows_associated_to_router_block tf b).filter
            (fun f => decide (f ∉ p.2)) :=
        revert_flat_fold_snd tf router placed _ p
      rw [hupd]
      show _ = (new_affected_flows tf (b :: bs) p.2).foldl _ p
      rw [new_affected_flows]
      simp only [hb, if_true, List.foldl_append]
    · rw [if_neg hb, ih]
      show _ = (new_affected_flows tf (b :: bs) p.2).foldl _ p
      rw [new_affected_flows]
      simp only [hb, Bool.false_eq_true, if_false]

theorem revert_eq_flat (tf : NocTrafficFlows) (router : NocRouting)
    (placed : BlockLocations) (hnd : tf.traffic_flow_ids.Nodup)
    (blocks : List ClusterBlockId) (s : NocPlaceState) :
    revert_noc_traffic_flow_routes blocks tf router placed s =
      re_route_flows_fold tf router placed (new_affected_flows tf blocks []) s := by
  unfold revert_noc_traffic_flow_routes
  rw [revert_fold_eq_flat tf router placed hnd blocks (s, []),
    revert_flat_fold_fst]

/-! ## Properties of the deduplicated affected-flow list -/

theorem new_affected_flows_subset (tf : NocTrafficFlows)
    (blocks : List ClusterBlockId) :
    ∀ (seen : List NocTrafficFlowId) (f : NocTrafficFlowId),
      f ∈ new_affected_flows tf blocks seen → f ∈ tf.traffic_flow_ids := by
  induction blocks with
  | nil => intro seen f h; cases h
  | cons b bs ih =>
    intro seen f h
    rw [new_affected_flows] at h
    by_cases hb : tf.is_noc_router_block b
    · simp only [hb, if_true, List.mem_append] at h
      rcases h with h | h
      · exact List.mem_of_mem_filter (List.mem_of_mem_filter h)
      · exact ih _ f h
    · simp only [hb, Bool.false_eq_true, if_false] at h
      exact ih _ f h

theorem new_affected_flows_not_seen (tf : NocTrafficFlows)
    (blocks : List ClusterBlockId) :
    ∀ (seen : List NocTrafficFlowId) (f : NocTrafficFlowId),
      f ∈ new_affected_flows tf blocks seen → f ∉ seen := by
  induction blocks with
  | nil => intro seen f h; cases h
  | cons b bs ih =>
    intro seen f h
    rw [new_affected_flows] at h
    by_cases hb : tf.is_noc_router_block b
    · simp only [hb, if_true, List.mem_append] at h
      rcases h with h | h
      · have := List.of_mem_filter h
        simpa using this
      · intro hseen
        exact ih _ f h (List.mem_append.mpr (Or.inl hseen))
    · simp only [hb, Bool.false_eq_true, if_false] at h
      exact ih _ f h

theorem new_affected_flows_nodup (tf : NocTrafficFlows)
    (hnd : tf.traffic_flow_ids.Nodup) (blocks : List ClusterBlockId) :
    ∀ seen : List NocTrafficFlowId, (new_affected_flows tf blocks seen).Nodup := by
  induction blocks with
  | nil => intro seen; exact List.nodup_nil
  | cons b bs ih =>
    intro seen
    rw [new_affected_flows]
    by_cases hb : tf.is_noc_router_block b
    · simp only [hb, if_true]
      refine List.Nodup.append ?_ (ih _) ?_
      · exact List.Nodup.filter _ (List.Nodup.filter _ hnd)
      · intro x hx hx2
        exact new_affected_flows_not_seen tf bs _ x hx2
          (List.mem_append.mpr (Or.inr hx))
    · simp only [hb, Bool.false_eq_true, if_false]
      exact ih _

/-! ## Claim C5: per-transaction deduplication -/

/-- Claim C5: within one move transaction every traffic flow is re-routed at
most once: the Affected-Flow Set recorded by
`find_affected_noc_routers_and_update_noc_costs` is exactly the deduplicated
affected-flow list (which has no duplicates), the returned count is its
size, and each cost delta is the sum, over that deduplicated list, of the
flow's single (new − old) cost contribution. -/
theorem find_affected_dedup_count (tf : NocTrafficFlows) (router : NocRouting)
    (placed : BlockLocations) (opts : t_noc_opts)
    (blocks : List ClusterBlockId) (s : NocPlaceState)
    (hnd : tf.traffic_flow_ids.Nodup) :
    (find_affected_noc_routers_and_update_noc_costs blocks tf router placed opts
      s).updated_traffic_flows = new_affected_flows tf blocks [] ∧
    (new_affected_flows tf blocks []).Nodup ∧
    (find_affected_noc_routers_and_update_noc_costs blocks tf router placed opts
      s).affected_count = (new_affected_flows tf blocks []).length ∧
    (find_affected_noc_routers_and_update_noc_costs blocks tf router placed opts
      s).noc_aggregate_bandwidth_delta_c =
      ((new_affected_flows tf blocks []).map
        (flow_bw_delta tf router placed s)).sum ∧
    (find_affected_noc_routers_and_update_noc_costs blocks tf router placed opts
      s).noc_latency_delta_c =
      ((new_affected_flows tf blocks []).map
        (flow_lat_delta tf router placed opts s)).sum := by
  have hLnd : (new_affected_flows tf blocks []).Nodup :=
    new_affected_flows_nodup tf hnd blocks []
  rw [find_affected_eq_flat tf router placed opts hnd blocks s]
  refine ⟨?_, hLnd, ?_, ?_, ?_⟩
  · rw [flat_fold_updated tf router placed opts _ ⟨s, [], 0, 0, 0⟩]
    rfl
  · rw [flat_fold_count tf router placed opts _ ⟨s, [], 0, 0, 0⟩]
    exact Nat.zero_add _
  · rw [flat_fold_bw_delta tf router placed opts _ ⟨s, [], 0, 0, 0⟩ hLnd]
    exact zero_add _
  · rw [flat_fold_lat_delta tf router placed opts _ ⟨s, [], 0, 0, 0⟩ hLnd]
    exact zero_add _

/-- Witness for C5: the scenario from the spec: one moved router block (10)
that is the source of flow 0 and the sink of flow 1; both flows are
re-routed once each and the affected-flow count is 2. -/
theorem find_affected_dedup_count_witness :
    (find_affected_noc_routers_and_update_noc_costs [10]
      ⟨[0, 1], fun f => if f = 0 then ⟨10, 11, 1, none, 1⟩ else ⟨12, 10, 1, none, 1⟩,
        fun _ => true⟩
      (fun a b => [a + b]) (fun b => b) ⟨1, 1⟩
      ⟨⟨[], fun _ => 1, fun _ => 0, 0, fun _ => 0⟩, fun _ => []⟩).affected_count = 2 :=
  (find_affected_dedup_count
    ⟨[0, 1], fun f => if f = 0 then ⟨10, 11, 1, none, 1⟩ else ⟨12, 10, 1, none, 1⟩,
      fun _ => true⟩
    (fun a b => [a + b]) (fun b => b) ⟨1, 1⟩ [10]
    ⟨⟨[], fun _ => 1, fun _ => 0, 0, fun _ => 0⟩, fun _ => []⟩
    (by decide)).2.2.1.trans (by decide)

/-! ## Claim C1: a rejected move restores all state exactly -/

theorem re_route_round_trip (tf : NocTrafficFlows) (router : NocRouting)
    (placed_new placed_old : BlockLocations) (L : List NocTrafficFlowId)
    (s0 : NocPlaceState) (hLnd : L.Nodup)
    (hroutes : ∀ f ∈ L,
      s0.traffic_flow_routes f = get_traffic_flow_route f tf router placed_old) :
    re_route_flows_fold tf router placed_old L
      (re_route_flows_fold tf router placed_new L s0) = s0 := by
  ext1
  case noc_model =>
    obtain ⟨h1, h2, h3, h4⟩ := re_route_flows_fold_statics tf router placed_old L
      (re_route_flows_fold tf router placed_new L s0)
    obtain ⟨g1, g2, g3, g4⟩ := re_route_flows_fold_statics tf router placed_new L s0
    ext1
    case link_ids => exact h1.trans g1
    case link_bandwidth => exact h2.trans g2
    case link_latency => exact h3.trans g3
    case noc_router_latency => exact h4.trans g4
    case bandwidth_usage =>
      funext x
      rw [re_route_flows_fold_usage tf router placed_old L x
        (re_route_flows_fold tf router placed_new L s0) hLnd,
        re_route_flows_fold_usage tf router placed_new L x s0 hLnd]
      have hinner : L.map (fun f => (tf.flow_info f).traffic_flow_bandwidth *
          (((get_traffic_flow_route f tf router placed_old).count x : ℚ) -
            (((re_route_flows_fold tf router placed_new L
              s0).traffic_flow_routes f).count x : ℚ))) =
          L.map (fun f => (tf.flow_info f).traffic_flow_bandwidth *
            (((get_traffic_flow_route f tf router placed_old).count x : ℚ) -
              ((get_traffic_flow_route f tf router placed_new).count x : ℚ))) := by
        refine List.map_congr_left (fun f hf => ?_)
        rw [re_route_flows_fold_routes tf router placed_new L s0 f, if_pos hf]
      have houter : L.map (fun f => (tf.flow_info f).traffic_flow_bandwidth *
          (((get_traffic_flow_route f tf router placed_new).count x : ℚ) -
            ((s0.traffic_flow_routes f).count x : ℚ))) =
          L.map (fun f => (tf.flow_info f).traffic_flow_bandwidth *
            (((get_traffic_flow_route f tf router placed_new).count x : ℚ) -
              ((get_traffic_flow_route f tf router placed_old).count x : ℚ))) := by
        refine List.map_congr_left (fun f hf => ?_)
        rw [hroutes f hf]
      rw [hinner, houter, add_assoc, sum_map_add_eq]
      have hzero : (L.map (fun f =>
          ((tf.flow_info f).traffic_flow_bandwidth *
            (((get_traffic_flow_route f tf router placed_new).count x : ℚ) -
              ((get_traffic_flow_route f tf router placed_old).count x : ℚ)) +
           (tf.flow_info f).traffic_flow_bandwidth *
            (((get_traffic_flow_route f tf router placed_old).count x : ℚ) -
              ((get_traffic_flow_route f tf router placed_new).count x : ℚ))))).sum = 0 :=
        sum_map_zero_of _ _ (fun f _ => by ring)
      rw [hzero, add_zero]
  case traffic_flow_routes =>
    funext g
    rw [re_route_flows_fold_routes tf router placed_old L _ g,
      re_route_flows_fold_routes tf router placed_new L s0 g]
    by_cases hg : g ∈ L
    · rw [if_pos hg, (hroutes g hg).symm]
    · rw [if_neg hg, if_neg hg]

/-- Claim C1: for every move transaction processed by
`find_affected_noc_routers_and_update_noc_costs` and then rejected, after
the external placer restores the prior router locations and
`revert_noc_traffic_flow_routes` runs, the Topology Model usage counters,
the Route Store and the Cost State are exactly (bit-for-bit, i.e. as equal
rationals) their pre-transaction values, and in particular the multiset of
per-link usage values is conserved exactly.  The hypothesis `hroutes` is the
spec's determinism requirement: the pre-transaction Route Store was produced
by the (purely functional) Routing Strategy at the prior locations. -/
theorem rejected_move_restores_state (tf : NocTrafficFlows)
    (router : NocRouting) (opts : t_noc_opts) (blocks : List ClusterBlockId)
    (placed_new placed_old : BlockLocations) (costs : t_placer_costs)
    (s0 : NocPlaceState) (hnd : tf.traffic_flow_ids.Nodup)
    (hroutes : ∀ f ∈ tf.traffic_flow_ids,
      s0.traffic_flow_routes f = get_traffic_flow_route f tf router placed_old) :
    rejected_move tf router opts blocks placed_new placed_old (costs, s0) =
      (costs, s0) ∧
    ((rejected_move tf router opts blocks placed_new placed_old
        (costs, s0)).2.noc_model.link_ids.map
      (rejected_move tf router opts blocks placed_new placed_old
        (costs, s0)).2.noc_model.bandwidth_usage : Multiset ℚ) =
      (s0.noc_model.link_ids.map s0.noc_model.bandwidth_usage : Multiset ℚ) := by
  have hmain : rejected_move tf router opts blocks placed_new placed_old
      (costs, s0) = (costs, s0) := by
    show (costs, revert_noc_traffic_flow_routes blocks tf router placed_old
      (find_affected_noc_routers_and_update_noc_costs blocks tf router
        placed_new opts s0).state) = (costs, s0)
    have hs1 : (find_affected_noc_routers_and_update_noc_costs blocks tf router
        placed_new opts s0).state =
        re_route_flows_fold tf router placed_new
          (new_affected_flows tf blocks []) s0 := by
      rw [find_affected_eq_flat tf router placed_new opts hnd blocks s0,
        flat_fold_state]
    rw [hs1, revert_eq_flat tf router placed_old hnd blocks _,
      re_route_round_trip tf router placed_new placed_old
        (new_affected_flows tf blocks []) s0
        (new_affected_flows_nodup tf hnd blocks [])
        (fun f hf => hroutes f (new_affected_flows_subset tf blocks [] f hf))]
  refine ⟨hmain, ?_⟩
  rw [hmain]

/-- Witness for C1: one router block (10) carrying one flow, moved and then
reverted; the pre-transaction Route Store agrees with the Routing Strategy
at the prior locations, and the rejected move leaves costs and state
untouched. -/
theorem rejected_move_restores_state_witness :
    rejected_move ⟨[0], fun _ => ⟨10, 11, 1, none, 1⟩, fun _ => true⟩
      (fun a b => [a + b]) ⟨1, 1⟩ [10] (fun b => b + 1) (fun b => b)
      (⟨1, 2, 3, 4⟩,
        ⟨⟨[21], fun _ => 1, fun _ => 0, 0, fun l => if l = 21 then 1 else 0⟩,
          fun _ => [21]⟩) =
      (⟨1, 2, 3, 4⟩,
        ⟨⟨[21], fun _ => 1, fun _ => 0, 0, fun l => if l = 21 then 1 else 0⟩,
          fun _ => [21]⟩) :=
  (rejected_move_restores_state ⟨[0], fun _ => ⟨10, 11, 1, none, 1⟩, fun _ => true⟩
    (fun a b => [a + b]) ⟨1, 1⟩ [10] (fun b => b + 1) (fun b => b) ⟨1, 2, 3, 4⟩
    ⟨⟨[21], fun _ => 1, fun _ => 0, 0, fun l => if l = 21 then 1 else 0⟩,
      fun _ => [21]⟩ (by decide) (by decide)).1

/-! ## Claim C8: incremental and full cost recomputation agree -/

theorem comp_agg_flat (tf : NocTrafficFlows) (router : NocRouting)
    (placed : BlockLocations) (L : List NocTrafficFlowId) (s : NocPlaceState)
    (hnd : tf.traffic_flow_ids.Nodup) (hLnd : L.Nodup)
    (hLsub : ∀ f ∈ L, f ∈ tf.traffic_flow_ids) :
    comp_noc_aggregate_bandwidth_cost tf (re_route_flows_fold tf router placed L s) =
      comp_noc_aggregate_bandwidth_cost tf s +
        (L.map (flow_bw_delta tf router placed s)).sum := by
  unfold comp_noc_aggregate_bandwidth_cost
  have hsplit : tf.traffic_flow_ids.map (fun f =>
      calculate_traffic_flow_aggregate_bandwidth_cost
        ((re_route_flows_fold tf router placed L s).traffic_flow_routes f)
        (tf.flow_info f)) =
      tf.traffic_flow_ids.map (fun f =>
        calculate_traffic_flow_aggregate_bandwidth_cost
          (s.traffic_flow_routes f) (tf.flow_info f) +
        (if f ∈ L then flow_bw_delta tf router placed s f else 0)) := by
    refine List.map_congr_left (fun f _ => ?_)
    rw [re_route_flows_fold_routes tf router placed L s f]
    by_cases hfL : f ∈ L
    · rw [if_pos hfL, if_pos hfL]
      unfold flow_bw_delta
      ring
    · rw [if_neg hfL, if_neg hfL]
      ring
  rw [hsplit, ← sum_map_add_eq]
  congr 1
  rw [sum_map_of_support_subset L tf.traffic_flow_ids _ hLnd hnd hLsub
    (fun a _ ha => if_neg ha)]
  exact congrArg List.sum (List.map_congr_left (fun f hf => if_pos hf))

theorem comp_lat_flat (tf : NocTrafficFlows) (router : NocRouting)
    (placed : BlockLocations) (opts : t_noc_opts) (L : List NocTrafficFlowId)
    (s : NocPlaceState) (hnd : tf.traffic_flow_ids.Nodup) (hLnd : L.Nodup)
    (hLsub : ∀ f ∈ L, f ∈ tf.traffic_flow_ids) :
    comp_noc_latency_cost tf (re_route_flows_fold tf router placed L s) opts =
      comp_noc_latency_cost tf s opts +
        (L.map (flow_lat_delta tf router placed opts s)).sum := by
  unfold comp_noc_latency_cost
  obtain ⟨_, _, h3, h4⟩ := re_route_flows_fold_statics tf router placed L s
  have hsplit : tf.traffic_flow_ids.map (fun f =>
      calculate_traffic_flow_latency_cost
        ((re_route_flows_fold tf router placed L s).traffic_flow_routes f)
        (re_route_flows_fold tf router placed L s).noc_model
        (tf.flow_info f) opts) =
      tf.traffic_flow_ids.map (fun f =>
        calculate_traffic_flow_latency_cost (s.traffic_flow_routes f)
          s.noc_model (tf.flow_info f) opts +
        (if f ∈ L then flow_lat_delta tf router placed opts s f else 0)) := by
    refine List.map_congr_left (fun f _ => ?_)
    rw [re_route_flows_fold_routes tf router placed L s f,
      calculate_traffic_flow_latency_cost_congr _
        (re_route_flows_fold tf router placed L s).noc_model s.noc_model _ _ h3 h4]
    by_cases hfL : f ∈ L
    · rw [if_pos hfL, if_pos hfL]
      unfold flow_lat_delta
      ring
    · rw [if_neg hfL, if_neg hfL]
      ring
  rw [hsplit, ← sum_map_add_eq]
  congr 1
  rw [sum_map_of_support_subset L tf.traffic_flow_ids _ hLnd hnd hLsub
    (fun a _ ha => if_neg ha)]
  exact congrArg List.sum (List.map_congr_left (fun f hf => if_pos hf))

theorem accepted_move_agreement (tf : NocTrafficFlows) (router : NocRouting)
    (opts : t_noc_opts) (hnd : tf.traffic_flow_ids.Nodup)
    (move : List ClusterBlockId × BlockLocations)
    (cs : t_placer_costs × NocPlaceState)
    (hbw : cs.1.noc_aggregate_bandwidth_cost =
      comp_noc_aggregate_bandwidth_cost tf cs.2)
    (hlat : cs.1.noc_latency_cost = comp_noc_latency_cost tf cs.2 opts) :
    (accepted_move tf router opts move cs).1.noc_aggregate_bandwidth_cost =
      comp_noc_aggregate_bandwidth_cost tf (accepted_move tf router opts move cs).2 ∧
    (accepted_move tf router opts move cs).1.noc_latency_cost =
      comp_noc_latency_cost tf (accepted_move tf router opts move cs).2 opts := by
  have hLnd := new_affected_flows_nodup tf hnd move.1 []
  have hLsub := fun f hf => new_affected_flows_subset tf move.1 [] f hf
  have hstate : (find_affected_noc_routers_and_update_noc_costs move.1 tf router
      move.2 opts cs.2).state =
      re_route_flows_fold tf router move.2 (new_affected_flows tf move.1 []) cs.2 := by
    rw [find_affected_eq_flat tf router move.2 opts hnd move.1 cs.2, flat_fold_state]
  have hbwd : (find_affected_noc_routers_and_update_noc_costs move.1 tf router
      move.2 opts cs.2).noc_aggregate_bandwidth_delta_c =
      ((new_affected_flows tf move.1 []).map
        (flow_bw_delta tf router move.2 cs.2)).sum :=
    (find_affected_dedup_count tf router move.2 opts move.1 cs.2 hnd).2.2.2.1
  have hlatd : (find_affected_noc_routers_and_update_noc_costs move.1 tf router
      move.2 opts cs.2).noc_latency_delta_c =
      ((new_affected_flows tf move.1 []).map
        (flow_lat_delta tf router move.2 opts cs.2)).sum :=
    (find_affected_dedup_count tf router move.2 opts move.1 cs.2 hnd).2.2.2.2
  constructor
  · show cs.1.noc_aggregate_bandwidth_cost +
      (find_affected_noc_routers_and_update_noc_costs move.1 tf router move.2
        opts cs.2).noc_aggregate_bandwidth_delta_c =
      comp_noc_aggregate_bandwidth_cost tf
        (find_affected_noc_routers_and_update_noc_costs move.1 tf router move.2
          opts cs.2).state
    rw [hstate, hbwd, hbw,
      comp_agg_flat tf router move.2 (new_affected_flows tf move.1 []) cs.2
        hnd hLnd hLsub]
  · show cs.1.noc_latency_cost +
      (find_affected_noc_routers_and_update_noc_costs move.1 tf router move.2
        opts cs.2).noc_latency_delta_c =
      comp_noc_latency_cost tf
        (find_affected_noc_routers_and_update_noc_costs move.1 tf router move.2
          opts cs.2).state opts
    rw [hstate, hlatd, hlat,
      comp_lat_flat tf router move.2 opts (new_affected_flows tf move.1 []) cs.2
        hnd hLnd hLsub]

theorem accepted_moves_agreement (tf : NocTrafficFlows) (router : NocRouting)
    (opts : t_noc_opts) (hnd : tf.traffic_flow_ids.Nodup)
    (moves : List (List ClusterBlockId × BlockLocations)) :
    ∀ cs : t_placer_costs × NocPlaceState,
      cs.1.noc_aggregate_bandwidth_cost =
        comp_noc_aggregate_bandwidth_cost tf cs.2 →
      cs.1.noc_latency_cost = comp_noc_latency_cost tf cs.2 opts →
      (moves.foldl (fun cs m => accepted_move tf router opts m cs)
        cs).1.noc_aggregate_bandwidth_cost =
        comp_noc_aggregate_bandwidth_cost tf
          (moves.foldl (fun cs m => accepted_move tf router opts m cs) cs).2 ∧
      (moves.foldl (fun cs m => accepted_move tf router opts m cs)
        cs).1.noc_latency_cost =
        comp_noc_latency_cost tf
          (moves.foldl (fun cs m => accepted_move tf router opts m cs) cs).2 opts := by
  induction moves with
  | nil => intro cs hbw hlat; exact ⟨hbw, hlat⟩
  | cons m rest ih =>
    intro cs hbw hlat
    rw [List.foldl_cons]
    obtain ⟨h1, h2⟩ := accepted_move_agreement tf router opts hnd m cs hbw hlat
    exact ih (accepted_move tf router opts m cs) h1 h2

/-- Claim C8: after any sequence of move transactions processed by
`find_affected_noc_routers_and_update_noc_costs` and committed via
`commit_noc_costs`, the incrementally maintained Cost State equals the
from-scratch recomputation exactly (hence within any non-negative
tolerance), so `check_noc_placement_costs` reports no drift; and
`check_noc_placement_costs` signals a drift failure exactly when a cost
term's difference from the fresh full recomputation exceeds the
caller-supplied error tolerance. -/
theorem incremental_full_agreement (tf : NocTrafficFlows) (router : NocRouting)
    (opts : t_noc_opts) (moves : List (List ClusterBlockId × BlockLocations))
    (costs0 : t_placer_costs) (s0 : NocPlaceState)
    (hnd : tf.traffic_flow_ids.Nodup)
    (hbw0 : costs0.noc_aggregate_bandwidth_cost =
      comp_noc_aggregate_bandwidth_cost tf s0)
    (hlat0 : costs0.noc_latency_cost = comp_noc_latency_cost tf s0 opts) :
    (moves.foldl (fun cs m => accepted_move tf router opts m cs)
      (costs0, s0)).1.noc_aggregate_bandwidth_cost =
      comp_noc_aggregate_bandwidth_cost tf
        (moves.foldl (fun cs m => accepted_move tf router opts m cs)
          (costs0, s0)).2 ∧
    (moves.foldl (fun cs m => accepted_move tf router opts m cs)
      (costs0, s0)).1.noc_latency_cost =
      comp_noc_latency_cost tf
        (moves.foldl (fun cs m => accepted_move tf router opts m cs)
          (costs0, s0)).2 opts ∧
    (∀ tol : ℚ, 0 ≤ tol →
      check_noc_placement_costs
        (moves.foldl (fun cs m => accepted_move tf router opts m cs)
          (costs0, s0)).1 tol tf
        (moves.foldl (fun cs m => accepted_move tf router opts m cs)
          (costs0, s0)).2 opts = 0) ∧
    (∀ (costs : t_placer_costs) (tol : ℚ) (s : NocPlaceState),
      0 < check_noc_placement_costs costs tol tf s opts ↔
        (tol < |comp_noc_aggregate_bandwidth_cost tf s -
          costs.noc_aggregate_bandwidth_cost| ∨
         tol < |comp_noc_latency_cost tf s opts - costs.noc_latency_cost|)) := by
  obtain ⟨h1, h2⟩ := accepted_moves_agreement tf router opts hnd moves
    (costs0, s0) hbw0 hlat0
  refine ⟨h1, h2, fun tol htol => ?_, fun costs tol s => ?_⟩
  · unfold check_noc_placement_costs recompute_noc_costs
    dsimp only
    rw [show comp_noc_aggregate_bandwidth_cost tf
        (moves.foldl (fun cs m => accepted_move tf router opts m cs)
          (costs0, s0)).2 -
        (moves.foldl (fun cs m => accepted_move tf router opts m cs)
          (costs0, s0)).1.noc_aggregate_bandwidth_cost = 0 by
      rw [h1, sub_self],
      show comp_noc_latency_cost tf
        (moves.foldl (fun cs m => accepted_move tf router opts m cs)
          (costs0, s0)).2 opts -
        (moves.foldl (fun cs m => accepted_move tf router opts m cs)
          (costs0, s0)).1.noc_latency_cost = 0 by
      rw [h2, sub_self]]
    rw [abs_zero, if_neg (not_lt.mpr htol)]
  · unfold check_noc_placement_costs recompute_noc_costs
    dsimp only
    by_cases hb : tol < |comp_noc_aggregate_bandwidth_cost tf s -
        costs.noc_aggregate_bandwidth_cost|
    · rw [if_pos hb]
      constructor
      · exact fun _ => Or.inl hb
      · intro _
        split <;> norm_num
    · rw [if_neg hb]
      by_cases hl : tol < |comp_noc_latency_cost tf s opts - costs.noc_latency_cost|
      · rw [if_pos hl]
        constructor
        · exact fun _ => Or.inr hl
        · intro _
          norm_num
      · rw [if_neg hl]
        constructor
        · intro h
          exact absurd h (by norm_num)
        · intro h
          rcases h with h | h
          · exact absurd h hb
          · exact absurd h hl

/-- Witness for C8: an empty flow registry with matching initial costs; one
committed move keeps the incremental Cost State in exact agreement and the
drift audit reports no error at tolerance 0. -/
theorem incremental_full_agreement_witness :
    check_noc_placement_costs
      (([([5], fun b => b)] :
        List (List ClusterBlockId × BlockLocations)).foldl
        (fun cs m => accepted_move ⟨[], fun _ => ⟨0, 1, 1, none, 1⟩, fun _ => true⟩
          (fun a b => [a + b]) ⟨1, 1⟩ m cs)
        (⟨0, 0, 1, 1⟩,
          ⟨⟨[], fun _ => 1, fun _ => 0, 0, fun _ => 0⟩, fun _ => []⟩)).1 0
      ⟨[], fun _ => ⟨0, 1, 1, none, 1⟩, fun _ => true⟩
      (([([5], fun b => b)] :
        List (List ClusterBlockId × BlockLocations)).foldl
        (fun cs m => accepted_move ⟨[], fun _ => ⟨0, 1, 1, none, 1⟩, fun _ => true⟩
          (fun a b => [a + b]) ⟨1, 1⟩ m cs)
        (⟨0, 0, 1, 1⟩,
          ⟨⟨[], fun _ => 1, fun _ => 0, 0, fun _ => 0⟩, fun _ => []⟩)).2
      ⟨1, 1⟩ = 0 :=
  (incremental_full_agreement ⟨[], fun _ => ⟨0, 1, 1, none, 1⟩, fun _ => true⟩
    (fun a b => [a + b]) ⟨1, 1⟩ [([5], fun b => b)] ⟨0, 0, 1, 1⟩
    ⟨⟨[], fun _ => 1, fun _ => 0, 0, fun _ => 0⟩, fun _ => []⟩
    (by decide) rfl rfl).2.2.1 0 (by decide)

/-! ## Claim C2: the usage invariant -/

theorem re_route_preserves_invariant (tf : NocTrafficFlows) (router : NocRouting)
    (placed : BlockLocations) (f0 : NocTrafficFlowId) (s : NocPlaceState)
    (hnd : tf.traffic_flow_ids.Nodup) (hf0 : f0 ∈ tf.traffic_flow_ids)
    (hr : ∀ a b, (router a b).Nodup) (hum : usage_matches_routes tf s)
    (hrnd : ∀ f ∈ tf.traffic_flow_ids, (s.traffic_flow_routes f).Nodup) :
    usage_matches_routes tf (re_route_traffic_flow f0 tf router placed s) ∧
    ∀ f ∈ tf.traffic_flow_ids,
      ((re_route_traffic_flow f0 tf router placed s).traffic_flow_routes f).Nodup := by
  have hnewnd : (get_traffic_flow_route f0 tf router placed).Nodup := hr _ _
  constructor
  · intro l
    rw [re_route_traffic_flow_usage f0 tf router placed s l,
      filter_map_sum_indicator, hum l, filter_map_sum_indicator,
      sum_map_point_change tf.traffic_flow_ids f0
        (fun f => if decide (l ∈ s.traffic_flow_routes f) = true
          then (tf.flow_info f).traffic_flow_bandwidth else 0)
        (fun f => if decide (l ∈ (re_route_traffic_flow f0 tf router placed
            s).traffic_flow_routes f) = true
          then (tf.flow_info f).traffic_flow_bandwidth else 0) hnd hf0
        (fun f _ hne => by
          dsimp only
          rw [re_route_traffic_flow_routes, Function.update_noteq hne]),
      add_right_inj, re_route_traffic_flow_routes, Function.update_same,
      count_cast_indicator _ l hnewnd,
      count_cast_indicator _ l (hrnd f0 hf0)]
    simp only [decide_eq_true_eq]
    by_cases h1 : l ∈ get_traffic_flow_route f0 tf router placed <;>
      by_cases h2 : l ∈ s.traffic_flow_routes f0 <;>
      simp [h1, h2]
  · intro f hf
    rw [re_route_traffic_flow_routes]
    by_cases hff : f = f0
    · subst hff
      rw [Function.update_same]
      exact hnewnd
    · rw [Function.update_noteq hff]
      exact hrnd f hf

theorem re_route_flows_fold_preserves_invariant (tf : NocTrafficFlows)
    (router : NocRouting) (placed : BlockLocations)
    (hnd : tf.traffic_flow_ids.Nodup) (hr : ∀ a b, (router a b).Nodup)
    (L : List NocTrafficFlowId) :
    ∀ s : NocPlaceState, (∀ f ∈ L, f ∈ tf.traffic_flow_ids) →
      usage_matches_routes tf s →
      (∀ f ∈ tf.traffic_flow_ids, (s.traffic_flow_routes f).Nodup) →
      usage_matches_routes tf (re_route_flows_fold tf router placed L s) ∧
      ∀ f ∈ tf.traffic_flow_ids,
        ((re_route_flows_fold tf router placed L s).traffic_flow_routes f).Nodup := by
  induction L with
  | nil => intro s _ hum hrnd; exact ⟨hum, hrnd⟩
  | cons f rest ih =>
    intro s hsub hum hrnd
    rw [re_route_flows_fold_cons]
    obtain ⟨hum', hrnd'⟩ := re_route_preserves_invariant tf router placed f s
      hnd (hsub f (List.mem_cons_self f rest)) hr hum hrnd
    exact ih (re_route_traffic_flow f tf router placed s)
      (fun g hg => hsub g (List.mem_cons_of_mem f hg)) hum' hrnd'

theorem route_and_update_eq_re_route (tf : NocTrafficFlows) (router : NocRouting)
    (placed : BlockLocations) (s : NocPlaceState) (f : NocTrafficFlowId)
    (h : s.traffic_flow_routes f = []) :
    route_and_update tf router placed s f = re_route_traffic_flow f tf router placed s := by
  unfold route_and_update re_route_traffic_flow
  rw [h]
  rfl

theorem initial_fold_preserves_invariant (tf : NocTrafficFlows)
    (router : NocRouting) (placed : BlockLocations)
    (hnd : tf.traffic_flow_ids.Nodup) (hr : ∀ a b, (router a b).Nodup)
    (fl : List NocTrafficFlowId) :
    ∀ s : NocPlaceState, (∀ f ∈ fl, f ∈ tf.traffic_flow_ids) → fl.Nodup →
      (∀ f ∈ fl, s.traffic_flow_routes f = []) →
      usage_matches_routes tf s →
      (∀ f ∈ tf.traffic_flow_ids, (s.traffic_flow_routes f).Nodup) →
      usage_matches_routes tf
        (fl.foldl (route_and_update tf router placed) s) ∧
      ∀ f ∈ tf.traffic_flow_ids,
        ((fl.foldl (route_and_update tf router placed)
          s).traffic_flow_routes f).Nodup := by
  induction fl with
  | nil => intro s _ _ _ hum hrnd; exact ⟨hum, hrnd⟩
  | cons f rest ih =>
    intro s hsub hflnd hempty hum hrnd
    rw [List.foldl_cons,
      route_and_update_eq_re_route tf router placed s f
        (hempty f (List.mem_cons_self f rest))]
    obtain ⟨hum', hrnd'⟩ := re_route_preserves_invariant tf router placed f s
      hnd (hsub f (List.mem_cons_self f rest)) hr hum hrnd
    refine ih (re_route_traffic_flow f tf router placed s)
      (fun g hg => hsub g (List.mem_cons_of_mem f hg))
      (List.nodup_cons.mp hflnd).2 (fun g hg => ?_) hum' hrnd'
    have hgf : g ≠ f := fun h => (List.nodup_cons.mp hflnd).1 (h ▸ hg)
    rw [re_route_traffic_flow_routes, Function.update_noteq hgf]
    exact hempty g (List.mem_cons_of_mem f hg)

/-- Claim C2: every link's bandwidth-usage counter always equals the sum of
the bandwidth demands of exactly those flows whose current route in the
Route Store includes that link: the invariant holds as the postcondition of
`initial_noc_placement` (starting from zeroed usage counters) and is
preserved by every move transaction
(`find_affected_noc_routers_and_update_noc_costs`) and by every revert
(`revert_noc_traffic_flow_routes`), all of which mutate usage only through
`update_traffic_flow_link_usage` alongside the corresponding route change. -/
theorem usage_invariant_maintained (tf : NocTrafficFlows) (router : NocRouting)
    (hnd : tf.traffic_flow_ids.Nodup) (hr : ∀ a b, (router a b).Nodup) :
    (∀ (placed : BlockLocations) (noc0 : NocStorage),
      (∀ l, noc0.bandwidth_usage l = 0) →
      usage_matches_routes tf (initial_noc_placement tf router placed noc0) ∧
      ∀ f ∈ tf.traffic_flow_ids,
        ((initial_noc_placement tf router placed noc0).traffic_flow_routes f).Nodup) ∧
    (∀ (blocks : List ClusterBlockId) (placed : BlockLocations)
      (opts : t_noc_opts) (s : NocPlaceState),
      usage_matches_routes tf s →
      (∀ f ∈ tf.traffic_flow_ids, (s.traffic_flow_routes f).Nodup) →
      usage_matches_routes tf
        (find_affected_noc_routers_and_update_noc_costs blocks tf router placed
          opts s).state) ∧
    (∀ (blocks : List ClusterBlockId) (placed : BlockLocations)
      (s : NocPlaceState),
      usage_matches_routes tf s →
      (∀ f ∈ tf.traffic_flow_ids, (s.traffic_flow_routes f).Nodup) →
      usage_matches_routes tf
        (revert_noc_traffic_flow_routes blocks tf router placed s)) := by
  refine ⟨fun placed noc0 h0 => ?_, fun blocks placed opts s hum hrnd => ?_,
    fun blocks placed s hum hrnd => ?_⟩
  · unfold initial_noc_placement
    refine initial_fold_preserves_invariant tf router placed hnd hr
      tf.traffic_flow_ids ⟨noc0, fun _ => []⟩ (fun f hf => hf) hnd
      (fun _ _ => rfl) (fun l => ?_) (fun f _ => List.nodup_nil)
    show noc0.bandwidth_usage l = _
    rw [h0 l, List.filter_eq_nil_iff.mpr (fun f _ => by simp)]
    rfl
  · rw [find_affected_eq_flat tf router placed opts hnd blocks s, flat_fold_state]
    exact (re_route_flows_fold_preserves_invariant tf router placed hnd hr
      (new_affected_flows tf blocks []) s
      (fun f hf => new_affected_flows_subset tf blocks [] f hf) hum hrnd).1
  · rw [revert_eq_flat tf router placed hnd blocks s]
    exact (re_route_flows_fold_preserves_invariant tf router placed hnd hr
      (new_affected_flows tf blocks []) s
      (fun f hf => new_affected_flows_subset tf blocks [] f hf) hum hrnd).1

/-- Witness for C2: one flow between router blocks 1 and 2, routed by a
single-link strategy from zeroed usage counters; the invariant holds after
initial routing. -/
theorem usage_invariant_maintained_witness :
    usage_matches_routes ⟨[0], fun _ => ⟨1, 2, 3, none, 1⟩, fun _ => true⟩
      (initial_noc_placement ⟨[0], fun _ => ⟨1, 2, 3, none, 1⟩, fun _ => true⟩
        (fun a b => [a + b]) (fun b => b)
        ⟨[3], fun _ => 1, fun _ => 0, 0, fun _ => 0⟩) :=
  ((usage_invariant_maintained ⟨[0], fun _ => ⟨1, 2, 3, none, 1⟩, fun _ => true⟩
    (fun a b => [a + b]) (by decide)
    (fun a b => List.nodup_singleton (a + b))).1 (fun b => b)
    ⟨[3], fun _ => 1, fun _ => 0, 0, fun _ => 0⟩ (fun _ => rfl)).1
